import Mathlib

/-!
Formal model of the order lifecycle of the ezcommerce REST API.

The definitions below are a shallow embedding of the route handlers that
implement checkout (`routes/orders.ts`, POST /checkout), order queries
(GET /:id), buyer item completion (PATCH /items/:id/complete), order
cancellation (PATCH /:id/cancel), the seller fulfillment transitions
(`routes/sellerFulfillment.ts`, PATCH /order-items/:id/status and
PATCH /order-items/:id/deliver), and review submission
(`routes/reviews.ts`, POST /).

The database is modelled as lists of rows.  Each top-level Prisma call is
one atomic commit; a `prisma.$transaction` block is modelled as an
`Option DB`-valued body executed against the current state, where `none`
means the transaction threw and was rolled back (the pre-state is kept).
A Prisma `update`/`delete` by id throws when no row matches, hence those
primitives are `Option`-valued.  Handlers that issue several top-level
calls outside a transaction are additionally modelled by the list of
committed states they produce, so that intermediate observable states can
be talked about.
-/

/-- Order.status enum from the Prisma schema. -/
inductive OrderStatus where
  | PENDING
  | PAID
  | COMPLETED
  | CANCELLED
deriving DecidableEq, Repr

/-- OrderItem.status enum from the Prisma schema. -/
inductive OrderItemStatus where
  | PENDING
  | DELIVERED
  | COMPLETED
  | CANCELLED
deriving DecidableEq, Repr

/-- Rendering of an `OrderItemStatus` as the string Prisma stores,
used by the deliver handler's interpolated error message. -/
def OrderItemStatus.name : OrderItemStatus → String
  | .PENDING => "PENDING"
  | .DELIVERED => "DELIVERED"
  | .COMPLETED => "COMPLETED"
  | .CANCELLED => "CANCELLED"

/-- Product row (the fields the order-lifecycle handlers read/write). -/
structure Product where
  id : Nat
  shopId : Nat
  price : Int
  stock : Int
deriving DecidableEq, Repr

/-- Shop row (only used for the seller-ownership join). -/
structure Shop where
  id : Nat
  userId : Nat
deriving DecidableEq, Repr

/-- CartItem row. -/
structure CartItem where
  id : Nat
  userId : Nat
  productId : Nat
  quantity : Int
deriving DecidableEq, Repr

/-- Order row. -/
structure Order where
  id : Nat
  userId : Nat
  status : OrderStatus
  total : Int
  address : String
  shipping : String
  payment : String
deriving DecidableEq, Repr

/-- OrderItem row. -/
structure OrderItem where
  id : Nat
  orderId : Nat
  productId : Nat
  quantity : Int
  price : Int
  status : OrderItemStatus
deriving DecidableEq, Repr

/-- Review row. -/
structure Review where
  id : Nat
  userId : Nat
  productId : Nat
  rating : Int
  comment : String
deriving DecidableEq, Repr

/-- The database state: one list of rows per table, plus the
auto-increment counters for the tables the modelled handlers insert into. -/
structure DB where
  products : List Product
  shops : List Shop
  cartItems : List CartItem
  orders : List Order
  orderItems : List OrderItem
  reviews : List Review
  nextOrderId : Nat
  nextOrderItemId : Nat
  nextReviewId : Nat
deriving DecidableEq, Repr

/-- Model of `prisma.product.findUnique({ where: { id } })`. -/
def findProduct (ps : List Product) (pid : Nat) : Option Product :=
  ps.find? (fun p => p.id == pid)

/-- Stock of the product with id `pid` (0 when absent); a reading helper
for stating theorems. -/
def productStock (ps : List Product) (pid : Nat) : Int :=
  ((findProduct ps pid).map (fun p => p.stock)).getD 0

/-- Price of the product with id `pid` (0 when absent); a reading helper
for stating theorems. -/
def productPrice (ps : List Product) (pid : Nat) : Int :=
  ((findProduct ps pid).map (fun p => p.price)).getD 0

/-- Status of the (first) order item with id `iid`, a reading helper. -/
def itemStatus (db : DB) (iid : Nat) : Option OrderItemStatus :=
  (db.orderItems.find? (fun oi => oi.id == iid)).map (fun oi => oi.status)

/-- Status of the (first) order with id `oid`, a reading helper. -/
def orderStatus (db : DB) (oid : Nat) : Option OrderStatus :=
  (db.orders.find? (fun o => o.id == oid)).map (fun o => o.status)

/-- Model of `prisma.product.update` with a stock increment/decrement:
throws (`none`) when no product row has the id, otherwise adds `delta` to
its stock.  Checkout passes a negative delta, restock a positive one. -/
def adjustStock (ps : List Product) (pid : Nat) (delta : Int) : Option (List Product) :=
  if ps.any (fun p => p.id == pid) then
    some (ps.map (fun p => if p.id == pid then { p with stock := p.stock + delta } else p))
  else none

/-- Model of `prisma.cartItem.delete({ where: { id } })`: throws (`none`) when no
row matches. -/
def deleteCartLine (cs : List CartItem) (cid : Nat) : Option (List CartItem) :=
  if cs.any (fun c => c.id == cid) then
    some (cs.filter (fun c => !(c.id == cid)))
  else none

/-- Model of `prisma.orderItem.update({ where: { id }, data: { status } })`:
throws (`none`) when no row matches. -/
def setItemStatus (its : List OrderItem) (iid : Nat) (st : OrderItemStatus) :
    Option (List OrderItem) :=
  if its.any (fun oi => oi.id == iid) then
    some (its.map (fun oi => if oi.id == iid then { oi with status := st } else oi))
  else none

/-- Model of `prisma.order.update({ where: { id }, data: { status } })`:
throws (`none`) when no row matches. -/
def setOrderStatus (os : List Order) (oid : Nat) (st : OrderStatus) :
    Option (List Order) :=
  if os.any (fun o => o.id == oid) then
    some (os.map (fun o => if o.id == oid then { o with status := st } else o))
  else none

/-! ## Checkout (POST /api/orders/checkout) -/

/-- The cart lines the checkout reads:
`prisma.cartItem.findMany({ where: { userId, ...(selectedItemIds ? { id: { in: selectedItemIds } } : {}) } })`. -/
def cartLinesFor (db : DB) (uid : Nat) (sel : Option (List Nat)) : List CartItem :=
  db.cartItems.filter (fun ci =>
    ci.userId == uid &&
      (match sel with
       | some ids => ids.contains ci.id
       | none => true))

/-- The `include: { product: true }` join: each cart line paired with its
product row; `none` when a referenced product row is missing. -/
def joinProducts (db : DB) : List CartItem → Option (List (CartItem × Product))
  | [] => some []
  | ci :: rest =>
    match findProduct db.products ci.productId with
    | none => none
    | some p =>
      match joinProducts db rest with
      | none => none
      | some tl => some ((ci, p) :: tl)

/-- Model of `items.reduce((sum, ci) => sum + ci.quantity * ci.product.price, 0)`. -/
def checkoutTotal (lines : List (CartItem × Product)) : Int :=
  lines.foldl (fun s lp => s + lp.1.quantity * lp.2.price) 0

/-- The order items nested-created with the order: one per cart line,
status PENDING, price = snapshot of the product's current price. -/
def mkOrderItems (startId oid : Nat) : List (CartItem × Product) → List OrderItem
  | [] => []
  | (ci, p) :: rest =>
    { id := startId, orderId := oid, productId := ci.productId,
      quantity := ci.quantity, price := p.price, status := .PENDING }
      :: mkOrderItems (startId + 1) oid rest

/-- One iteration of the checkout transaction's loop: decrement the
line's product stock, then delete the cart line. -/
def checkoutStep (s : DB) (lp : CartItem × Product) : Option DB :=
  match adjustStock s.products lp.1.productId (-(lp.1.quantity)) with
  | none => none
  | some ps =>
    match deleteCartLine s.cartItems lp.1.id with
    | none => none
    | some cs => some { s with products := ps, cartItems := cs }

/-- The checkout transaction's `for (const ci of items)` loop. -/
def checkoutLoop : List (CartItem × Product) → DB → Option DB
  | [], s => some s
  | lp :: rest, s =>
    match checkoutStep s lp with
    | none => none
    | some s1 => checkoutLoop rest s1

/-- The body of `prisma.$transaction` in the checkout handler: create the
order with its nested items, then run the stock/cart loop. -/
def checkoutTxn (db : DB) (uid : Nat) (addr ship pay : String)
    (lines : List (CartItem × Product)) (total : Int) : Option (Order × DB) :=
  let order : Order :=
    { id := db.nextOrderId, userId := uid, status := .PAID, total := total,
      address := addr, shipping := ship, payment := pay }
  let newItems := mkOrderItems db.nextOrderItemId order.id lines
  let db1 : DB :=
    { db with
      orders := db.orders ++ [order],
      orderItems := db.orderItems ++ newItems,
      nextOrderId := db.nextOrderId + 1,
      nextOrderItemId := db.nextOrderItemId + newItems.length }
  match checkoutLoop lines db1 with
  | none => none
  | some db2 => some (order, db2)

/-- Result of the checkout handler. -/
inductive CheckoutRes where
  | validationError (msg : String)
  | emptyCart (msg : String)
  | serverError
  | ok (order : Order)
deriving DecidableEq, Repr

/-- POST /api/orders/checkout.  Missing/empty address, shipping or
payment is falsy in the handler's guard; the transaction rolls back to
the pre-state when any statement inside it throws. -/
def checkout (db : DB) (uid : Nat) (addr ship pay : String)
    (sel : Option (List Nat)) : CheckoutRes × DB :=
  if addr.isEmpty || ship.isEmpty || pay.isEmpty then
    (.validationError "Missing required fields: address, shipping, or payment", db)
  else
    let items := cartLinesFor db uid sel
    if items.isEmpty then
      (.emptyCart "Cart is empty", db)
    else
      match joinProducts db items with
      | none => (.serverError, db)
      | some lines =>
        let total := checkoutTotal lines
        match checkoutTxn db uid addr ship pay lines total with
        | none => (.serverError, db)
        | some (o, db2) => (.ok o, db2)

/-! ## Order query (GET /api/orders/:id) -/

/-- Result of the get-order handler. -/
inductive OrderRes where
  | notFound (msg : String)
  | ok (order : Order)
deriving DecidableEq, Repr

/-- GET /api/orders/:id:
`prisma.order.findFirst({ where: { id, userId: req.user.userId } })`;
a missing row and a row owned by another user are indistinguishable. -/
def getOrder (db : DB) (uid oid : Nat) : OrderRes :=
  match db.orders.find? (fun o => o.id == oid && o.userId == uid) with
  | none => .notFound "Order not found"
  | some o => .ok o

/-! ## Buyer item completion (PATCH /api/orders/items/:id/complete) -/

/-- Result of the item-status handlers. -/
inductive ItemRes where
  | notFound (msg : String)
  | validationError (msg : String)
  | invalidTransition (msg : String)
  | serverError
  | ok (item : OrderItem)
deriving DecidableEq, Repr

/-- The final state of a handler that produced the given list of
committed states (the pre-state when it committed nothing). -/
def lastState : List DB → DB → DB
  | [], db => db
  | [s], _ => s
  | _ :: s :: rest, db => lastState (s :: rest) db

/-- PATCH /api/orders/items/:id/complete, with the list of committed
states it produces.  The handler is NOT wrapped in a transaction: the
item update and the order update are two separate top-level Prisma calls,
so each of them is its own commit and the state between them is
observable.  The aggregate check `stillPending` is computed from
`item.order.items`, the sibling snapshot loaded before the update. -/
def completeItemStates (db : DB) (uid iid : Nat) : ItemRes × List DB :=
  match db.orderItems.find? (fun oi => oi.id == iid) with
  | none => (.notFound "Order item not found", [])
  | some item =>
    match db.orders.find? (fun o => o.id == item.orderId) with
    | none => (.notFound "Order item not found", [])
    | some order =>
      if !(order.userId == uid) then
        (.notFound "Order item not found", [])
      else if !(item.status == .PENDING) then
        (.invalidTransition "Invalid status transition", [])
      else
        let siblings := db.orderItems.filter (fun oi => oi.orderId == order.id)
        let s1 : DB :=
          { db with
            orderItems := db.orderItems.map (fun oi =>
              if oi.id == iid then { oi with status := .COMPLETED } else oi) }
        let updated : OrderItem := { item with status := .COMPLETED }
        let stillPending := siblings.any (fun oi =>
          !(oi.id == iid) && !(oi.status == OrderItemStatus.COMPLETED))
        if stillPending then
          (.ok updated, [s1])
        else
          let s2 : DB :=
            { s1 with
              orders := s1.orders.map (fun o =>
                if o.id == item.orderId then { o with status := .COMPLETED } else o) }
          (.ok updated, [s1, s2])

/-- PATCH /api/orders/items/:id/complete: result and final state. -/
def completeItem (db : DB) (uid iid : Nat) : ItemRes × DB :=
  let r := completeItemStates db uid iid
  (r.1, lastState r.2 db)

/-! ## Order cancellation (PATCH /api/orders/:id/cancel) -/

/-- Result of the cancel-order handler. -/
inductive CancelRes where
  | notFound (msg : String)
  | forbidden (msg : String)
  | serverError
  | ok
deriving DecidableEq, Repr

/-- One iteration of the cancel transaction's loop over the order's item
snapshot: a PENDING item is set to CANCELLED and its quantity is added
back to its product's stock; any other item is skipped. -/
def cancelStep (s : DB) (oi : OrderItem) : Option DB :=
  if oi.status == OrderItemStatus.PENDING then
    match setItemStatus s.orderItems oi.id .CANCELLED with
    | none => none
    | some its =>
      match adjustStock s.products oi.productId oi.quantity with
      | none => none
      | some ps => some { s with orderItems := its, products := ps }
  else some s

/-- The cancel transaction's `for (const oi of order.items)` loop. -/
def cancelLoop : List OrderItem → DB → Option DB
  | [], s => some s
  | oi :: rest, s =>
    match cancelStep s oi with
    | none => none
    | some s1 => cancelLoop rest s1

/-- The item snapshot `include: { items: true }` of the order being
cancelled. -/
def orderItemsOf (db : DB) (oid : Nat) : List OrderItem :=
  db.orderItems.filter (fun oi => oi.orderId == oid)

/-- PATCH /api/orders/:id/cancel. -/
def cancelOrder (db : DB) (uid oid : Nat) : CancelRes × DB :=
  match db.orders.find? (fun o => o.id == oid && o.userId == uid) with
  | none => (.notFound "Order not found", db)
  | some order =>
    let items := orderItemsOf db order.id
    if items.any (fun oi => oi.status == OrderItemStatus.COMPLETED) then
      (.forbidden "Order has completed items", db)
    else
      match cancelLoop items db with
      | none => (.serverError, db)
      | some db1 =>
        match setOrderStatus db1.orders order.id .CANCELLED with
        | none => (.serverError, db)
        | some os => (.ok, { db1 with orders := os })

/-! ## Seller fulfillment (PATCH /api/seller-fulfillment/order-items/...) -/

/-- The relational ownership filter
`{ product: { shop: { userId: sellerId } } }`. -/
def sellerOwnsItem (db : DB) (sellerId : Nat) (oi : OrderItem) : Bool :=
  match findProduct db.products oi.productId with
  | none => false
  | some p =>
    match db.shops.find? (fun s => s.id == p.shopId) with
    | none => false
    | some s => s.userId == sellerId

/-- PATCH /api/seller-fulfillment/order-items/:id/status, with the list
of committed states.  The handler uppercases the incoming status string
before comparing; `statusParam` here stands for that already-uppercased
string.  The status update and the restock on CANCELLED are two separate
top-level Prisma calls (no transaction). -/
def sellerStatusStates (db : DB) (sellerId iid : Nat) (statusParam : String) :
    ItemRes × List DB :=
  let sp := statusParam
  if !(sp == "CANCELLED" || sp == "DELIVERED") then
    (.validationError "Only CANCELLED or DELIVERED are allowed by seller", [])
  else
    match db.orderItems.find? (fun oi => oi.id == iid && sellerOwnsItem db sellerId oi) with
    | none => (.notFound "Order item not found", [])
    | some item =>
      if !(item.status == OrderItemStatus.PENDING) then
        (.invalidTransition "Invalid status transition (must be from PENDING)", [])
      else
        let newSt : OrderItemStatus := if sp == "CANCELLED" then .CANCELLED else .DELIVERED
        let s1 : DB :=
          { db with
            orderItems := db.orderItems.map (fun oi =>
              if oi.id == iid then { oi with status := newSt } else oi) }
        let updated : OrderItem := { item with status := newSt }
        if sp == "CANCELLED" then
          match adjustStock s1.products item.productId item.quantity with
          | none => (.serverError, [s1])
          | some ps => (.ok updated, [s1, { s1 with products := ps }])
        else
          (.ok updated, [s1])

/-- PATCH /api/seller-fulfillment/order-items/:id/status: result and
final state. -/
def sellerStatus (db : DB) (sellerId iid : Nat) (statusParam : String) :
    ItemRes × DB :=
  let r := sellerStatusStates db sellerId iid statusParam
  (r.1, lastState r.2 db)

/-- PATCH /api/seller-fulfillment/order-items/:id/deliver. -/
def sellerDeliver (db : DB) (sellerId iid : Nat) : ItemRes × DB :=
  match db.orderItems.find? (fun oi => oi.id == iid && sellerOwnsItem db sellerId oi) with
  | none => (.notFound "Order item not found", db)
  | some item =>
    if item.status == OrderItemStatus.DELIVERED then
      (.invalidTransition "Item already marked as DELIVERED", db)
    else if !(item.status == OrderItemStatus.PENDING) then
      (.invalidTransition
        ("Invalid transition. Current status: " ++ item.status.name ++
          ". Only PENDING -> DELIVERED allowed."), db)
    else
      let updated : OrderItem := { item with status := .DELIVERED }
      ( .ok updated,
        { db with
          orderItems := db.orderItems.map (fun oi =>
            if oi.id == iid then { oi with status := .DELIVERED } else oi) })

/-! ## Review submission (POST /api/reviews) -/

/-- Result of the review handler. -/
inductive ReviewRes where
  | validationError (msg : String)
  | notEligible (msg : String)
  | ok (review : Review)
deriving DecidableEq, Repr

/-- The eligibility query
`prisma.orderItem.findFirst({ where: { productId, order: { userId, status: COMPLETED } } })`. -/
def eligibleItem (db : DB) (uid pid : Nat) : Option OrderItem :=
  db.orderItems.find? (fun oi =>
    oi.productId == pid &&
      ((db.orders.find? (fun o => o.id == oi.orderId)).any (fun o =>
        o.userId == uid && o.status == OrderStatus.COMPLETED)))

/-- POST /api/reviews: requires a COMPLETED purchase of the product, then
find-or-create/update of the caller's review for it. -/
def submitReview (db : DB) (uid pid : Nat) (rating : Int) (comment : String) :
    ReviewRes × DB :=
  if pid == 0 || rating < 1 || rating > 5 then
    (.validationError "Invalid productId or rating", db)
  else
    match eligibleItem db uid pid with
    | none => (.notEligible "Complete a purchase before reviewing", db)
    | some _ =>
      match db.reviews.find? (fun r => r.userId == uid && r.productId == pid) with
      | some ex =>
        let updated : Review := { ex with rating := rating, comment := comment }
        ( .ok updated,
          { db with
            reviews := db.reviews.map (fun r =>
              if r.id == ex.id then { r with rating := rating, comment := comment } else r) })
      | none =>
        let nr : Review :=
          { id := db.nextReviewId, userId := uid, productId := pid,
            rating := rating, comment := comment }
        (.ok nr, { db with reviews := db.reviews ++ [nr], nextReviewId := db.nextReviewId + 1 })

/-- The claim-side formula for the checkout total: sum over cart lines of
quantity times the product's current price. -/
def cartTotal (ps : List Product) (cs : List CartItem) : Int :=
  (cs.map (fun ci => ci.quantity * productPrice ps ci.productId)).sum

/-- The reflexive closure of the fixed partial order on item statuses:
PENDING may move to DELIVERED, COMPLETED or CANCELLED, DELIVERED may move
to COMPLETED, and COMPLETED and CANCELLED are terminal. -/
def allowedMove (a b : OrderItemStatus) : Bool :=
  a == b || a == OrderItemStatus.PENDING
    || (a == OrderItemStatus.DELIVERED && b == OrderItemStatus.COMPLETED)

/-- A database with a single PAID order of user 1 holding one PENDING
item; a concrete input for the completion handler. -/
def dbOneItem : DB :=
  { products := [⟨1, 1, 100, 10⟩], shops := [⟨1, 9⟩], cartItems := [],
    orders := [⟨1, 1, .PAID, 100, "addr", "JNE", "BCA"⟩],
    orderItems := [⟨1, 1, 1, 1, 100, .PENDING⟩], reviews := [],
    nextOrderId := 2, nextOrderItemId := 2, nextReviewId := 1 }

/-- A two-product, two-cart-line database for user 1; the spec's concrete
checkout scenario (prices 100 and 50, quantities 2 and 1). -/
def dbCart : DB :=
  { products := [⟨1, 1, 100, 10⟩, ⟨2, 1, 50, 5⟩], shops := [⟨1, 9⟩],
    cartItems := [⟨1, 1, 1, 2⟩, ⟨2, 1, 2, 1⟩],
    orders := [], orderItems := [], reviews := [],
    nextOrderId := 55, nextOrderItemId := 10, nextReviewId := 1 }

/-- Like `dbOneItem` but with the item already DELIVERED. -/
def dbDelivered : DB :=
  { products := [⟨1, 1, 100, 10⟩], shops := [⟨1, 9⟩], cartItems := [],
    orders := [⟨1, 1, .PAID, 100, "addr", "JNE", "BCA"⟩],
    orderItems := [⟨1, 1, 1, 1, 100, .DELIVERED⟩], reviews := [],
    nextOrderId := 2, nextOrderItemId := 2, nextReviewId := 1 }

/-- A database where user 5 has a COMPLETED order containing product 101
and no review yet; the spec's concrete review scenario. -/
def dbCompleted : DB :=
  { products := [⟨101, 1, 100, 10⟩], shops := [⟨1, 9⟩], cartItems := [],
    orders := [⟨1, 5, .COMPLETED, 100, "addr", "JNE", "BCA"⟩],
    orderItems := [⟨1, 1, 101, 1, 100, .PENDING⟩], reviews := [],
    nextOrderId := 2, nextOrderItemId := 2, nextReviewId := 1 }

/-! ## Basic lemmas about the modelled Prisma primitives -/

theorem natBeq_comm (a b : Nat) : (a == b) = (b == a) := by
  rcases eq_or_ne a b with h | h
  · subst h; rfl
  · rw [beq_eq_false_iff_ne.mpr h, beq_eq_false_iff_ne.mpr h.symm]

theorem bool_eq_of_iff {a b : Bool} (h : a = true ↔ b = true) : a = b := by
  cases a <;> cases b <;> simp_all

theorem find?_map_congr {α : Type} (g : α → α) (p : α → Bool) (l : List α)
    (h : ∀ a, p (g a) = p a) : (l.map g).find? p = (l.find? p).map g := by
  have hpg : p ∘ g = p := funext h
  rw [List.find?_map, hpg]

theorem adjustStock_eq (ps ps' : List Product) (pid : Nat) (d : Int)
    (h : adjustStock ps pid d = some ps') :
    ps' = ps.map (fun p => if p.id == pid then { p with stock := p.stock + d } else p) ∧
    (ps.any (fun p => p.id == pid)) = true := by
  unfold adjustStock at h
  split at h
  · exact ⟨(Option.some.inj h).symm, by assumption⟩
  · cases h

theorem adjustStock_stock_self (ps ps' : List Product) (pid : Nat) (d : Int)
    (h : adjustStock ps pid d = some ps') :
    productStock ps' pid = productStock ps pid + d := by
  obtain ⟨heq, hany⟩ := adjustStock_eq ps ps' pid d h
  subst heq
  rw [List.any_eq_true] at hany
  obtain ⟨x, hx, hpx⟩ := hany
  have hfind : ∃ y, ps.find? (fun p => p.id == pid) = some y := by
    have : (ps.find? (fun p => p.id == pid)).isSome := by
      rw [List.find?_isSome]; exact ⟨x, hx, hpx⟩
    exact Option.isSome_iff_exists.mp this
  obtain ⟨y, hy⟩ := hfind
  have hyp : (y.id == pid) = true := by
    have h2 := List.find?_some hy
    simpa using h2
  unfold productStock findProduct
  rw [find?_map_congr _ _ _ (fun a => by split <;> rfl)]
  unfold findProduct at hy
  rw [hy]
  have hid : y.id = pid := beq_iff_eq.mp hyp
  simp [hid]

theorem adjustStock_stock_other (ps ps' : List Product) (pid qid : Nat) (d : Int)
    (h : adjustStock ps pid d = some ps') (hne : qid ≠ pid) :
    productStock ps' qid = productStock ps qid := by
  obtain ⟨heq, _⟩ := adjustStock_eq ps ps' pid d h
  subst heq
  unfold productStock findProduct
  rw [find?_map_congr _ _ _ (fun a => by split <;> rfl)]
  cases hy : ps.find? (fun p => p.id == qid) with
  | none => rfl
  | some y =>
    have hyq : (y.id == qid) = true := by
      have h2 := List.find?_some hy
      simpa using h2
    have hne2 : y.id ≠ pid := by
      rw [beq_iff_eq] at hyq
      rw [hyq]; exact hne
    simp [hne2]

theorem adjustStock_price (ps ps' : List Product) (pid : Nat) (d : Int)
    (h : adjustStock ps pid d = some ps') (qid : Nat) :
    productPrice ps' qid = productPrice ps qid := by
  obtain ⟨heq, _⟩ := adjustStock_eq ps ps' pid d h
  subst heq
  unfold productPrice findProduct
  rw [find?_map_congr _ _ _ (fun a => by split <;> rfl)]
  cases hy : ps.find? (fun p => p.id == qid) with
  | none => rfl
  | some y =>
    by_cases hc : y.id = pid <;> simp [hc]

theorem deleteCartLine_eq (cs cs' : List CartItem) (cid : Nat)
    (h : deleteCartLine cs cid = some cs') :
    cs' = cs.filter (fun c => !(c.id == cid)) := by
  unfold deleteCartLine at h
  split at h
  · exact (Option.some.inj h).symm
  · cases h

theorem setItemStatus_eq (its its' : List OrderItem) (iid : Nat) (st : OrderItemStatus)
    (h : setItemStatus its iid st = some its') :
    its' = its.map (fun oi => if oi.id == iid then { oi with status := st } else oi) := by
  unfold setItemStatus at h
  split at h
  · exact (Option.some.inj h).symm
  · cases h

theorem setOrderStatus_eq (os os' : List Order) (oid : Nat) (st : OrderStatus)
    (h : setOrderStatus os oid st = some os') :
    os' = os.map (fun o => if o.id == oid then { o with status := st } else o) := by
  unfold setOrderStatus at h
  split at h
  · exact (Option.some.inj h).symm
  · cases h

/-! ## Checkout lemmas -/

theorem joinProducts_fst (db : DB) :
    ∀ (cs : List CartItem) (lines : List (CartItem × Product)),
      joinProducts db cs = some lines → lines.map Prod.fst = cs := by
  intro cs
  induction cs with
  | nil => intro lines h; cases h; rfl
  | cons ci rest ih =>
    intro lines h
    unfold joinProducts at h
    cases hp : findProduct db.products ci.productId with
    | none => rw [hp] at h; cases h
    | some p =>
      rw [hp] at h
      cases ht : joinProducts db rest with
      | none => rw [ht] at h; cases h
      | some tl =>
        rw [ht] at h
        cases h
        simp [ih tl ht]

theorem joinProducts_lookup (db : DB) :
    ∀ (cs : List CartItem) (lines : List (CartItem × Product)),
      joinProducts db cs = some lines →
      ∀ lp ∈ lines, findProduct db.products lp.1.productId = some lp.2 := by
  intro cs
  induction cs with
  | nil => intro lines h; cases h; intro lp hlp; cases hlp
  | cons ci rest ih =>
    intro lines h
    unfold joinProducts at h
    cases hp : findProduct db.products ci.productId with
    | none => rw [hp] at h; cases h
    | some p =>
      rw [hp] at h
      cases ht : joinProducts db rest with
      | none => rw [ht] at h; cases h
      | some tl =>
        rw [ht] at h
        cases h
        intro lp hlp
        cases hlp with
        | head => exact hp
        | tail _ hmem => exact ih tl ht lp hmem

theorem checkoutTotal_eq_sum (lines : List (CartItem × Product)) :
    checkoutTotal lines = (lines.map (fun lp => lp.1.quantity * lp.2.price)).sum := by
  unfold checkoutTotal
  rw [List.sum_eq_foldl, List.foldl_map]

theorem checkoutTotal_eq_cartTotal (db : DB) (cs : List CartItem)
    (lines : List (CartItem × Product)) (h : joinProducts db cs = some lines) :
    checkoutTotal lines = cartTotal db.products cs := by
  rw [checkoutTotal_eq_sum]
  unfold cartTotal
  rw [← joinProducts_fst db cs lines h, List.map_map]
  congr 1
  apply List.map_congr_left
  intro lp hlp
  have hl := joinProducts_lookup db cs lines h lp hlp
  simp only [Function.comp_apply]
  unfold productPrice
  rw [hl]
  rfl

theorem mkOrderItems_proj (oid : Nat) :
    ∀ (lines : List (CartItem × Product)) (startId : Nat),
      (mkOrderItems startId oid lines).map
          (fun it => (it.orderId, it.productId, it.quantity, it.price, it.status))
        = lines.map (fun lp =>
            (oid, lp.1.productId, lp.1.quantity, lp.2.price, OrderItemStatus.PENDING)) := by
  intro lines
  induction lines with
  | nil => intro startId; rfl
  | cons lp rest ih =>
    intro startId
    cases lp with
    | mk ci p => simp [mkOrderItems, ih (startId + 1)]

theorem mkOrderItems_length (oid : Nat) :
    ∀ (lines : List (CartItem × Product)) (startId : Nat),
      (mkOrderItems startId oid lines).length = lines.length := by
  intro lines
  induction lines with
  | nil => intro startId; rfl
  | cons lp rest ih =>
    intro startId
    cases lp with
    | mk ci p => simp [mkOrderItems, ih (startId + 1)]

theorem checkoutLoop_spec (lines : List (CartItem × Product)) :
    ∀ (s s' : DB), checkoutLoop lines s = some s' →
      s'.shops = s.shops ∧ s'.orders = s.orders ∧ s'.orderItems = s.orderItems ∧
      s'.reviews = s.reviews ∧ s'.nextOrderId = s.nextOrderId ∧
      s'.nextOrderItemId = s.nextOrderItemId ∧ s'.nextReviewId = s.nextReviewId ∧
      (∀ pid, productStock s'.products pid =
        productStock s.products pid -
          (((lines.map Prod.fst).filter (fun ci => ci.productId == pid)).map
            (fun ci => ci.quantity)).sum) ∧
      s'.cartItems = s.cartItems.filter (fun c =>
        !((lines.map (fun lp => lp.1.id)).contains c.id)) := by
  induction lines with
  | nil =>
    intro s s' h
    cases h
    refine ⟨rfl, rfl, rfl, rfl, rfl, rfl, rfl, ?_, ?_⟩
    · intro pid; simp
    · simp
  | cons lp rest ih =>
    intro s s' h
    unfold checkoutLoop at h
    cases hstep : checkoutStep s lp with
    | none => rw [hstep] at h; cases h
    | some s1 =>
      rw [hstep] at h
      obtain ⟨h1, h2, h3, h4, h5, h6, h7, h8, h9⟩ := ih s1 s' h
      unfold checkoutStep at hstep
      cases hadj : adjustStock s.products lp.1.productId (-(lp.1.quantity)) with
      | none => rw [hadj] at hstep; cases hstep
      | some ps1 =>
        rw [hadj] at hstep
        cases hdel : deleteCartLine s.cartItems lp.1.id with
        | none => rw [hdel] at hstep; cases hstep
        | some cs1 =>
          rw [hdel] at hstep
          injection hstep with hs1
          subst hs1
          refine ⟨h1, h2, h3, h4, h5, h6, h7, ?_, ?_⟩
          · intro pid
            rw [h8 pid]
            by_cases hc : lp.1.productId = pid
            · subst hc
              have hself := adjustStock_stock_self _ _ _ _ hadj
              simp only [List.map_cons, List.filter_cons, beq_self_eq_true, if_pos,
                List.sum_cons] at *
              rw [hself]
              ring
            · have hother := adjustStock_stock_other _ _ lp.1.productId pid _ hadj (Ne.symm hc)
              have hbeq : (lp.1.productId == pid) = false := beq_eq_false_iff_ne.mpr hc
              simp only [List.map_cons, List.filter_cons, hbeq, if_neg, Bool.false_eq_true,
                not_false_iff, List.sum_cons] at *
              rw [hother]
          · rw [h9]
            have hcs1 : cs1 = s.cartItems.filter (fun c => !(c.id == lp.1.id)) :=
              deleteCartLine_eq _ _ _ hdel
            subst hcs1
            rw [List.filter_filter]
            congr 1
            funext c
            simp [List.contains_cons, Bool.not_or, Bool.and_comm]

theorem sum_filter_nodup (cs : List CartItem)
    (hnd : (cs.map (fun ci => ci.productId)).Nodup) :
    ∀ ci ∈ cs,
      ((cs.filter (fun x => x.productId == ci.productId)).map (fun x => x.quantity)).sum
        = ci.quantity := by
  induction cs with
  | nil => intro ci hci; cases hci
  | cons hd tl ih =>
    rw [List.map_cons, List.nodup_cons] at hnd
    obtain ⟨hnot, hnd2⟩ := hnd
    intro ci hci
    cases hci with
    | head =>
      have htl : tl.filter (fun x => x.productId == hd.productId) = [] := by
        rw [List.filter_eq_nil_iff]
        intro x hx hbeq
        rw [beq_iff_eq] at hbeq
        exact hnot (by rw [← hbeq]; exact List.mem_map_of_mem _ hx)
      simp [List.filter_cons, htl]
    | tail _ hmem =>
      have hne : (hd.productId == ci.productId) = false := by
        rw [beq_eq_false_iff_ne]
        intro he
        exact hnot (by rw [he]; exact List.mem_map_of_mem _ hmem)
      simp only [List.filter_cons, hne, Bool.false_eq_true, if_neg, not_false_iff]
      exact ih hnd2 ci hmem

/-! ## Claim theorems: checkout -/

/-- C1.  For every checkout that succeeds, exactly one Order is created,
with status PAID and total equal to the sum over the consumed cart lines
of quantity times the product's current price; one OrderItem per consumed
cart line is created, with status PENDING and price equal to the snapshot
of the product's price at checkout; each affected product's stock is
decremented by the total quantity of the consumed lines referencing it
(hence, when the consumed lines reference pairwise distinct products, by
exactly that line's quantity); and every consumed cart line is deleted
(and no other cart line is). -/
theorem checkout_success_spec (db : DB) (uid : Nat) (addr ship pay : String)
    (sel : Option (List Nat)) (o : Order) (db' : DB)
    (h : checkout db uid addr ship pay sel = (.ok o, db')) :
    db'.orders = db.orders ++ [o] ∧
    o.status = .PAID ∧
    o.total = cartTotal db.products (cartLinesFor db uid sel) ∧
    (∃ newItems : List OrderItem,
      db'.orderItems = db.orderItems ++ newItems ∧
      newItems.map (fun it => (it.orderId, it.productId, it.quantity, it.price, it.status))
        = (cartLinesFor db uid sel).map (fun ci =>
            (o.id, ci.productId, ci.quantity,
              productPrice db.products ci.productId, OrderItemStatus.PENDING))) ∧
    (∀ pid, productStock db'.products pid = productStock db.products pid -
        (((cartLinesFor db uid sel).filter (fun ci => ci.productId == pid)).map
          (fun ci => ci.quantity)).sum) ∧
    (((cartLinesFor db uid sel).map (fun ci => ci.productId)).Nodup →
      ∀ ci ∈ cartLinesFor db uid sel,
        productStock db'.products ci.productId =
          productStock db.products ci.productId - ci.quantity) ∧
    db'.cartItems = db.cartItems.filter (fun c =>
      !(((cartLinesFor db uid sel).map (fun ci => ci.id)).contains c.id)) := by
  unfold checkout at h
  split at h
  · simp at h
  · dsimp only at h
    split at h
    · simp at h
    · cases hjp : joinProducts db (cartLinesFor db uid sel) with
      | none => rw [hjp] at h; simp at h
      | some lines =>
        rw [hjp] at h
        dsimp only at h
        cases htx : checkoutTxn db uid addr ship pay lines (checkoutTotal lines) with
        | none => rw [htx] at h; simp at h
        | some p =>
          rw [htx] at h
          cases p with
          | mk o2 db2 =>
            simp only [Prod.mk.injEq, CheckoutRes.ok.injEq] at h
            obtain ⟨ho, hdb⟩ := h
            subst ho
            subst hdb
            unfold checkoutTxn at htx
            dsimp only at htx
            split at htx
            · cases htx
            · rename_i dbf hlp
              injection htx with htx2
              have hfst := joinProducts_fst db (cartLinesFor db uid sel) lines hjp
              obtain ⟨hsh, hor, hoi, hrv, hn1, hn2, hn3, hstock, hcart⟩ :=
                checkoutLoop_spec lines _ dbf hlp
              simp only [Prod.mk.injEq] at htx2
              obtain ⟨ho2, hdbf⟩ := htx2
              subst hdbf
              subst ho2
              refine ⟨?_, ?_, ?_, ?_, ?_, ?_, ?_⟩
              · exact hor
              · rfl
              · exact checkoutTotal_eq_cartTotal db _ lines hjp
              · refine ⟨mkOrderItems db.nextOrderItemId db.nextOrderId lines, hoi, ?_⟩
                rw [mkOrderItems_proj]
                rw [← hfst, List.map_map]
                apply List.map_congr_left
                intro lp hlp2
                have hl := joinProducts_lookup db _ lines hjp lp hlp2
                simp only [Function.comp_apply]
                have hpp : productPrice db.products lp.1.productId = lp.2.price := by
                  unfold productPrice
                  rw [hl]
                  rfl
                rw [hpp]
              · intro pid
                have := hstock pid
                rw [hfst] at this
                exact this
              · intro hnd ci hci
                have hs := hstock ci.productId
                rw [hfst] at hs
                rw [hs, sum_filter_nodup _ hnd ci hci]
              · rw [hcart]
                congr 1
                have : (lines.map (fun lp => lp.1.id))
                    = (cartLinesFor db uid sel).map (fun ci => ci.id) := by
                  rw [← hfst, List.map_map]
                  rfl
                rw [this]

/-- C2.  Checkout never commits a partial effect: a missing (falsy)
address, shipping or payment fails with the validation error and an
unchanged database; an empty (possibly id-filtered) cart-line set fails
with the empty-cart error and an unchanged database; and in every failure
case whatsoever — including a failure of any stock decrement, item
insert, or cart deletion inside the transaction, which rolls back — the
returned database is exactly the pre-state: no Order created, no product
stock changed, no cart line deleted. -/
theorem checkout_failure_atomic (db : DB) (uid : Nat) (addr ship pay : String)
    (sel : Option (List Nat)) :
    ((addr.isEmpty || ship.isEmpty || pay.isEmpty) = true →
      checkout db uid addr ship pay sel =
        (.validationError "Missing required fields: address, shipping, or payment", db)) ∧
    ((addr.isEmpty || ship.isEmpty || pay.isEmpty) = false →
      cartLinesFor db uid sel = [] →
      checkout db uid addr ship pay sel = (.emptyCart "Cart is empty", db)) ∧
    (∀ r db', checkout db uid addr ship pay sel = (r, db') →
      (∀ o, r ≠ .ok o) → db' = db) := by
  refine ⟨?_, ?_, ?_⟩
  · intro hcond
    unfold checkout
    rw [if_pos hcond]
  · intro hcond hnil
    unfold checkout
    rw [if_neg (by rw [hcond]; exact Bool.false_ne_true)]
    dsimp only
    rw [hnil]
    rfl
  · intro r db' h hno
    unfold checkout at h
    split at h
    · cases h; rfl
    · dsimp only at h
      split at h
      · cases h; rfl
      · cases hjp : joinProducts db (cartLinesFor db uid sel) with
        | none => rw [hjp] at h; cases h; rfl
        | some lines =>
          rw [hjp] at h
          dsimp only at h
          cases htx : checkoutTxn db uid addr ship pay lines (checkoutTotal lines) with
          | none => rw [htx] at h; cases h; rfl
          | some p =>
            rw [htx] at h
            cases p with
            | mk o2 db2 =>
              cases h
              exact absurd rfl (hno o2)

/-! ## Claim theorems: order query -/

/-- C8.  For every getOrder call where every order with the requested id
belongs to a different user (which covers both an order owned by someone
else and no order at all), the result is the NotFound response — never a
Forbidden response and never the order's data — and it is identical to
the result on a database from which every order with that id has been
removed. -/
theorem getOrder_hides_foreign_orders (db : DB) (uid oid : Nat)
    (h : ∀ o ∈ db.orders, o.id = oid → o.userId ≠ uid) :
    getOrder db uid oid = .notFound "Order not found" ∧
    getOrder db uid oid =
      getOrder { db with orders := db.orders.filter (fun o => !(o.id == oid)) } uid oid := by
  have hnone : db.orders.find? (fun o => o.id == oid && o.userId == uid) = none := by
    rw [List.find?_eq_none]
    intro o ho hcon
    rw [Bool.and_eq_true, beq_iff_eq, beq_iff_eq] at hcon
    exact h o ho hcon.1 hcon.2
  have hnone2 : (db.orders.filter (fun o => !(o.id == oid))).find?
      (fun o => o.id == oid && o.userId == uid) = none := by
    rw [List.find?_eq_none]
    intro o ho hcon
    rw [List.mem_filter] at ho
    rw [Bool.and_eq_true] at hcon
    rw [hcon.1] at ho
    simp at ho
  constructor
  · unfold getOrder
    rw [hnone]
  · unfold getOrder
    dsimp only
    rw [hnone, hnone2]

/-! ## Claim theorems: reviews -/

/-- C7.  submitReview succeeds only when the caller has an order item for
the product whose owning order is COMPLETED (the handler's eligibility
query), failing with the not-eligible error and an unchanged database
otherwise; when the caller already has a review row for the product, a
second submission rewrites that row's rating and comment in place (the
number of review rows does not change), and only when no such row exists
is a new row appended.  Under unique order ids, the eligibility query is
equivalent to the existence of an order item of a COMPLETED order of the
caller for that product. -/
theorem submitReview_spec (db : DB) (uid pid : Nat) (rating : Int) (comment : String)
    (hpid : pid ≠ 0) (h1 : 1 ≤ rating) (h5 : rating ≤ 5) :
    (eligibleItem db uid pid = none →
      submitReview db uid pid rating comment =
        (.notEligible "Complete a purchase before reviewing", db)) ∧
    (∀ r db', submitReview db uid pid rating comment = (.ok r, db') →
      (eligibleItem db uid pid).isSome) ∧
    (∀ oi ex, eligibleItem db uid pid = some oi →
      db.reviews.find? (fun r => r.userId == uid && r.productId == pid) = some ex →
      submitReview db uid pid rating comment =
        (.ok { ex with rating := rating, comment := comment },
          { db with reviews := db.reviews.map (fun r =>
              if r.id == ex.id then { r with rating := rating, comment := comment } else r) }) ∧
      ((submitReview db uid pid rating comment).2).reviews.length = db.reviews.length) ∧
    (∀ oi, eligibleItem db uid pid = some oi →
      db.reviews.find? (fun r => r.userId == uid && r.productId == pid) = none →
      submitReview db uid pid rating comment =
        (.ok ⟨db.nextReviewId, uid, pid, rating, comment⟩,
          { db with
            reviews := db.reviews ++ [⟨db.nextReviewId, uid, pid, rating, comment⟩],
            nextReviewId := db.nextReviewId + 1 })) ∧
    ((db.orders.map (fun o => o.id)).Nodup →
      ((eligibleItem db uid pid).isSome ↔
        ∃ oi ∈ db.orderItems, oi.productId = pid ∧
          ∃ o ∈ db.orders, o.id = oi.orderId ∧ o.userId = uid ∧
            o.status = OrderStatus.COMPLETED)) := by
  have hval : (pid == 0 || rating < 1 || rating > 5) = false := by
    rw [Bool.or_eq_false_iff, Bool.or_eq_false_iff]
    refine ⟨⟨beq_eq_false_iff_ne.mpr hpid, ?_⟩, ?_⟩
    · simpa using not_lt.mpr h1
    · simpa using not_lt.mpr h5
  refine ⟨?_, ?_, ?_, ?_, ?_⟩
  · intro hel
    unfold submitReview
    rw [if_neg (by rw [hval]; exact Bool.false_ne_true), hel]
  · intro r db' h
    unfold submitReview at h
    rw [if_neg (by rw [hval]; exact Bool.false_ne_true)] at h
    cases hel : eligibleItem db uid pid with
    | none => rw [hel] at h; cases h
    | some oi => simp [hel]
  · intro oi ex hel hex
    unfold submitReview
    rw [if_neg (by rw [hval]; exact Bool.false_ne_true), hel, hex]
    refine ⟨rfl, ?_⟩
    dsimp only
    exact List.length_map _ _
  · intro oi hel hex
    unfold submitReview
    rw [if_neg (by rw [hval]; exact Bool.false_ne_true), hel, hex]
  · intro hnd
    unfold eligibleItem
    rw [List.find?_isSome]
    constructor
    · rintro ⟨oi, hoi, hp⟩
      rw [Bool.and_eq_true, beq_iff_eq] at hp
      obtain ⟨hpp, hany⟩ := hp
      cases hfo : db.orders.find? (fun o => o.id == oi.orderId) with
      | none => rw [hfo] at hany; cases hany
      | some o0 =>
        rw [hfo] at hany
        have ho0 : o0 ∈ db.orders := List.mem_of_find?_eq_some hfo
        have ho0id : (o0.id == oi.orderId) = true := by
          have h2 := List.find?_some hfo
          simpa using h2
        simp only [Option.any_some, Bool.and_eq_true, beq_iff_eq] at hany
        exact ⟨oi, hoi, hpp, o0, ho0, beq_iff_eq.mp ho0id, hany.1, hany.2⟩
    · rintro ⟨oi, hoi, hpp, o, ho, hid, huid, hst⟩
      refine ⟨oi, hoi, ?_⟩
      rw [Bool.and_eq_true, beq_iff_eq]
      refine ⟨hpp, ?_⟩
      cases hfo : db.orders.find? (fun o2 => o2.id == oi.orderId) with
      | none =>
        rw [List.find?_eq_none] at hfo
        exact absurd (by rw [beq_iff_eq]; exact hid) (hfo o ho)
      | some o0 =>
        have ho0 : o0 ∈ db.orders := List.mem_of_find?_eq_some hfo
        have ho0id : (o0.id == oi.orderId) = true := by
          have h2 := List.find?_some hfo
          simpa using h2
        have heq : o0 = o := List.inj_on_of_nodup_map hnd ho0 ho (by rw [beq_iff_eq.mp ho0id, hid])
        subst heq
        simp only [Option.any_some, Bool.and_eq_true, beq_iff_eq]
        exact ⟨huid, hst⟩

/-! ## Claim theorems: buyer item completion -/

/-- C5.  The buyer's item-completion call succeeds only when the item's
current status is PENDING; whenever the (owned) item's status is
DELIVERED, CANCELLED or COMPLETED — that is, anything other than
PENDING — it fails with the invalid-transition error, message
"Invalid status transition", and the database (hence the item's status)
is unchanged. -/
theorem completeItem_requires_pending (db : DB) (uid iid : Nat)
    (item : OrderItem) (order : Order)
    (hfind : db.orderItems.find? (fun oi => oi.id == iid) = some item)
    (hord : db.orders.find? (fun o => o.id == item.orderId) = some order)
    (hown : order.userId = uid) :
    (item.status ≠ .PENDING →
      completeItem db uid iid = (.invalidTransition "Invalid status transition", db)) ∧
    (∀ r db', completeItem db uid iid = (.ok r, db') → item.status = .PENDING) := by
  have h1 : (order.userId == uid) = true := beq_iff_eq.mpr hown
  have hcomp : item.status ≠ .PENDING →
      completeItem db uid iid = (.invalidTransition "Invalid status transition", db) := by
    intro hst
    have h2 : (item.status == OrderItemStatus.PENDING) = false :=
      beq_eq_false_iff_ne.mpr hst
    unfold completeItem completeItemStates
    rw [hfind]
    dsimp only
    rw [hord]
    dsimp only
    rw [h1]
    rw [h2]
    rfl
  constructor
  · exact hcomp
  · intro r db' h
    by_cases hst : item.status = OrderItemStatus.PENDING
    · exact hst
    · rw [hcomp hst] at h
      cases h

/-- C3 (amended).  When a buyer's item-completion call transitions a
PENDING item to COMPLETED: the call returns the completed item and
rewrites that item's status; if no sibling item of the order remains
non-COMPLETED, the order's status is set to COMPLETED by the end of the
call, but by a second, separate commit after the item update — the trace
of committed states has length 2 and its first state already has the item
COMPLETED while the orders table is untouched; if some sibling remains
non-COMPLETED, the orders table is unchanged. -/
theorem completeItem_success_spec (db : DB) (uid iid : Nat)
    (item : OrderItem) (order : Order)
    (hfind : db.orderItems.find? (fun oi => oi.id == iid) = some item)
    (hord : db.orders.find? (fun o => o.id == item.orderId) = some order)
    (hown : order.userId = uid) (hpend : item.status = .PENDING) :
    (completeItem db uid iid).1 = .ok { item with status := .COMPLETED } ∧
    ((completeItem db uid iid).2).orderItems = db.orderItems.map (fun oi =>
      if oi.id == iid then { oi with status := .COMPLETED } else oi) ∧
    (((db.orderItems.filter (fun oi => oi.orderId == order.id)).any (fun oi =>
        !(oi.id == iid) && !(oi.status == OrderItemStatus.COMPLETED))) = false →
      orderStatus ((completeItem db uid iid).2) order.id = some .COMPLETED ∧
      (completeItemStates db uid iid).2.length = 2 ∧
      ((completeItemStates db uid iid).2.headD db).orders = db.orders ∧
      ((completeItemStates db uid iid).2.headD db).orderItems
        = db.orderItems.map (fun oi =>
            if oi.id == iid then { oi with status := .COMPLETED } else oi)) ∧
    (((db.orderItems.filter (fun oi => oi.orderId == order.id)).any (fun oi =>
        !(oi.id == iid) && !(oi.status == OrderItemStatus.COMPLETED))) = true →
      ((completeItem db uid iid).2).orders = db.orders) := by
  have h1 : (order.userId == uid) = true := beq_iff_eq.mpr hown
  have h2 : (item.status == OrderItemStatus.PENDING) = true := beq_iff_eq.mpr hpend
  have hoid : order.id = item.orderId := by
    have h3 := List.find?_some hord
    simpa using h3
  unfold completeItem completeItemStates
  rw [hfind]
  dsimp only
  rw [hord]
  dsimp only
  rw [h1]
  rw [h2]
  cases hsp : (db.orderItems.filter (fun oi => oi.orderId == order.id)).any (fun oi =>
      !(oi.id == iid) && !(oi.status == OrderItemStatus.COMPLETED)) with
  | true =>
    refine ⟨rfl, rfl, ?_, ?_⟩
    · intro hc; cases hc
    · intro hc; rfl
  | false =>
    refine ⟨rfl, rfl, ?_, ?_⟩
    · intro hc
      refine ⟨?_, rfl, rfl, rfl⟩
      dsimp only [lastState]
      unfold orderStatus
      rw [find?_map_congr _ _ _ (fun o => by split <;> rfl)]
      rw [← hoid] at hord
      rw [hord]
      have h4 : (order.id == item.orderId) = true := beq_iff_eq.mpr hoid
      simp [h4, hoid]
    · intro hc; cases hc

/-- C3 counterexample.  On `dbOneItem`, completing the only item of the
order does set the order to COMPLETED by the end of the call, but the
item update and the order update are two separate commits and the first
committed (hence externally observable) state has the item COMPLETED —
with every item of the order COMPLETED — while the order is still PAID:
the update is not performed within one transaction and an intermediate
state is externally observable, contrary to the claim. -/
theorem completeItem_intermediate_state_observable :
    (completeItemStates dbOneItem 1 1).1 = .ok ⟨1, 1, 1, 1, 100, .COMPLETED⟩ ∧
    (completeItemStates dbOneItem 1 1).2.length = 2 ∧
    itemStatus ((completeItemStates dbOneItem 1 1).2.headD dbOneItem) 1
      = some .COMPLETED ∧
    (((completeItemStates dbOneItem 1 1).2.headD dbOneItem).orderItems.all
      (fun oi => oi.status == OrderItemStatus.COMPLETED)) = true ∧
    orderStatus ((completeItemStates dbOneItem 1 1).2.headD dbOneItem) 1
      = some OrderStatus.PAID ∧
    orderStatus ((completeItem dbOneItem 1 1).2) 1 = some OrderStatus.COMPLETED := by
  decide

/-! ## Claim theorems: seller fulfillment -/

/-- C6.  The seller can move an item from PENDING to DELIVERED at most
once: delivering a PENDING item succeeds, and a repeated deliver call on
the now-DELIVERED item is rejected with the invalid-transition message
"Item already marked as DELIVERED" — which names the item's current
status DELIVERED — leaving the database unchanged; the generic seller
status endpoint likewise rejects any attempt on a DELIVERED item with an
unchanged database; and a seller transition of a PENDING item to
CANCELLED sets the item to CANCELLED and increments exactly that item's
product's stock by exactly the item's quantity. -/
theorem seller_transitions_spec (db : DB) (sellerId iid : Nat) (item : OrderItem)
    (hfind : db.orderItems.find?
        (fun oi => oi.id == iid && sellerOwnsItem db sellerId oi) = some item) :
    (item.status = .PENDING →
      ∀ r db1, sellerDeliver db sellerId iid = (r, db1) →
        r = .ok { item with status := .DELIVERED } ∧
        db1.orderItems = db.orderItems.map (fun oi =>
          if oi.id == iid then { oi with status := .DELIVERED } else oi) ∧
        sellerDeliver db1 sellerId iid =
          (.invalidTransition ("Item already marked as " ++ OrderItemStatus.DELIVERED.name),
            db1)) ∧
    (item.status = .DELIVERED →
      sellerDeliver db sellerId iid =
        (.invalidTransition ("Item already marked as " ++ OrderItemStatus.DELIVERED.name),
          db)) ∧
    (item.status = .DELIVERED →
      sellerStatus db sellerId iid "DELIVERED" =
        (.invalidTransition "Invalid status transition (must be from PENDING)", db)) ∧
    (item.status = .PENDING →
      ∀ r db1, sellerStatus db sellerId iid "CANCELLED" = (r, db1) →
        r = .ok { item with status := .CANCELLED } ∧
        db1.orderItems = db.orderItems.map (fun oi =>
          if oi.id == iid then { oi with status := .CANCELLED } else oi) ∧
        productStock db1.products item.productId
          = productStock db.products item.productId + item.quantity ∧
        (∀ pid, pid ≠ item.productId →
          productStock db1.products pid = productStock db.products pid)) := by
  have hp := List.find?_some hfind
  rw [Bool.and_eq_true] at hp
  obtain ⟨hpid, hown⟩ := hp
  have hprod : ∃ p, findProduct db.products item.productId = some p := by
    unfold sellerOwnsItem at hown
    cases hfp : findProduct db.products item.productId with
    | none => rw [hfp] at hown; cases hown
    | some p => exact ⟨p, rfl⟩
  have hany : (db.products.any (fun p => p.id == item.productId)) = true := by
    obtain ⟨p, hp2⟩ := hprod
    rw [List.any_eq_true]
    refine ⟨p, List.mem_of_find?_eq_some hp2, ?_⟩
    have h2 := List.find?_some hp2
    simpa using h2
  refine ⟨?_, ?_, ?_, ?_⟩
  · intro hpend r db1 h
    have hd : (item.status == OrderItemStatus.DELIVERED) = false := by
      rw [hpend]; rfl
    have hq : (!(item.status == OrderItemStatus.PENDING)) = false := by
      rw [hpend]; rfl
    unfold sellerDeliver at h
    rw [hfind] at h
    dsimp only at h
    rw [if_neg (by simp [hd]), if_neg (by simp [hq])] at h
    injection h with h1 h2
    subst h1
    subst h2
    refine ⟨rfl, rfl, ?_⟩
    unfold sellerDeliver
    have hcongr : (List.map (fun oi =>
        if oi.id == iid then { oi with status := OrderItemStatus.DELIVERED } else oi)
          db.orderItems).find? (fun oi => oi.id == iid &&
            sellerOwnsItem { db with orderItems := db.orderItems.map (fun oi =>
              if oi.id == iid then { oi with status := OrderItemStatus.DELIVERED } else oi) }
              sellerId oi)
        = (db.orderItems.find? (fun oi => oi.id == iid &&
            sellerOwnsItem db sellerId oi)).map (fun oi =>
              if oi.id == iid then { oi with status := OrderItemStatus.DELIVERED } else oi) := by
      rw [find?_map_congr _ _ _ (fun a => by split <;> rfl)]
      rfl
    rw [hcongr, hfind]
    rw [Option.map_some']
    dsimp only
    rw [if_pos (show ((if (item.id == iid) = true then
        { item with status := OrderItemStatus.DELIVERED } else item).status
          == OrderItemStatus.DELIVERED) = true by rw [hpid]; rfl)]
    rfl
  · intro hdel
    have hd : (item.status == OrderItemStatus.DELIVERED) = true := by
      rw [hdel]; rfl
    unfold sellerDeliver
    rw [hfind]
    dsimp only
    rw [if_pos hd]
    rfl
  · intro hdel
    have hq : (!(item.status == OrderItemStatus.PENDING)) = true := by
      rw [hdel]; rfl
    unfold sellerStatus sellerStatusStates
    rw [if_neg (by decide)]
    dsimp only
    rw [hfind]
    dsimp only
    rw [if_pos hq]
    rfl
  · intro hpend r db1 h
    have hq : (!(item.status == OrderItemStatus.PENDING)) = false := by
      rw [hpend]; rfl
    have hadj : adjustStock db.products item.productId item.quantity
        = some (db.products.map (fun p =>
            if p.id == item.productId then { p with stock := p.stock + item.quantity }
            else p)) := by
      unfold adjustStock
      rw [hany]
      rfl
    unfold sellerStatus sellerStatusStates at h
    rw [if_neg (by decide)] at h
    dsimp only at h
    rw [hfind] at h
    dsimp only at h
    rw [if_neg (by simp [hq]), if_pos (by decide), if_pos (by decide)] at h
    rw [hadj] at h
    dsimp only [lastState] at h
    injection h with h1 h2
    subst h1
    subst h2
    refine ⟨rfl, rfl, ?_, ?_⟩
    · exact adjustStock_stock_self _ _ _ _ hadj
    · intro pid hne
      exact adjustStock_stock_other _ _ _ _ _ hadj hne

/-! ## Cancel-transaction lemmas -/

theorem cancel_cond_pending (hd r : OrderItem) (tl : List OrderItem)
    (hp : hd.status = OrderItemStatus.PENDING) :
    (if tl.any (fun oi => oi.id == (if r.id == hd.id then
          { r with status := OrderItemStatus.CANCELLED } else r).id
            && oi.status == OrderItemStatus.PENDING)
      then { (if r.id == hd.id then { r with status := OrderItemStatus.CANCELLED } else r)
              with status := OrderItemStatus.CANCELLED }
      else (if r.id == hd.id then { r with status := OrderItemStatus.CANCELLED } else r))
    = (if (hd :: tl).any (fun oi => oi.id == r.id && oi.status == OrderItemStatus.PENDING)
      then { r with status := OrderItemStatus.CANCELLED } else r) := by
  have hps : (hd.status == OrderItemStatus.PENDING) = true := beq_iff_eq.mpr hp
  by_cases hid : r.id = hd.id
  · have h1a : (r.id == hd.id) = true := beq_iff_eq.mpr hid
    have h1b : (hd.id == r.id) = true := beq_iff_eq.mpr hid.symm
    rw [List.any_cons]
    simp only [h1a, h1b, hps, Bool.and_true, Bool.true_or, if_true, if_pos]
    split <;> rfl
  · have h1a : (r.id == hd.id) = false := beq_eq_false_iff_ne.mpr hid
    have h1b : (hd.id == r.id) = false := beq_eq_false_iff_ne.mpr (Ne.symm hid)
    rw [List.any_cons]
    simp only [h1a, h1b, hps, Bool.and_true, Bool.false_or, Bool.false_eq_true, if_false]

theorem cancel_cond_skip (hd r : OrderItem) (tl : List OrderItem)
    (hp : hd.status ≠ OrderItemStatus.PENDING) :
    (if tl.any (fun oi => oi.id == r.id && oi.status == OrderItemStatus.PENDING)
      then { r with status := OrderItemStatus.CANCELLED } else r)
    = (if (hd :: tl).any (fun oi => oi.id == r.id && oi.status == OrderItemStatus.PENDING)
      then { r with status := OrderItemStatus.CANCELLED } else r) := by
  have hps : (hd.status == OrderItemStatus.PENDING) = false := beq_eq_false_iff_ne.mpr hp
  rw [List.any_cons]
  simp only [hps, Bool.and_false, Bool.false_or]

theorem cancelLoop_spec (its : List OrderItem) :
    ∀ (s s' : DB), cancelLoop its s = some s' →
      s'.shops = s.shops ∧ s'.cartItems = s.cartItems ∧ s'.orders = s.orders ∧
      s'.reviews = s.reviews ∧ s'.nextOrderId = s.nextOrderId ∧
      s'.nextOrderItemId = s.nextOrderItemId ∧ s'.nextReviewId = s.nextReviewId ∧
      s'.orderItems = s.orderItems.map (fun r =>
        if its.any (fun oi => oi.id == r.id && oi.status == OrderItemStatus.PENDING)
        then { r with status := OrderItemStatus.CANCELLED } else r) ∧
      (∀ pid, productStock s'.products pid =
        productStock s.products pid +
          ((its.filter (fun oi => oi.status == OrderItemStatus.PENDING
              && oi.productId == pid)).map (fun oi => oi.quantity)).sum) := by
  induction its with
  | nil =>
    intro s s' h
    cases h
    refine ⟨rfl, rfl, rfl, rfl, rfl, rfl, rfl, ?_, ?_⟩
    · simp
    · intro pid; simp
  | cons hd tl ih =>
    intro s s' h
    unfold cancelLoop at h
    cases hstep : cancelStep s hd with
    | none => rw [hstep] at h; cases h
    | some s1 =>
      rw [hstep] at h
      obtain ⟨h1, h2, h3, h4, h5, h6, h7, h8, h9⟩ := ih s1 s' h
      unfold cancelStep at hstep
      by_cases hp : hd.status = OrderItemStatus.PENDING
      · rw [if_pos (beq_iff_eq.mpr hp)] at hstep
        cases hset : setItemStatus s.orderItems hd.id .CANCELLED with
        | none => rw [hset] at hstep; cases hstep
        | some its1 =>
          rw [hset] at hstep
          cases hadj : adjustStock s.products hd.productId hd.quantity with
          | none => rw [hadj] at hstep; cases hstep
          | some ps1 =>
            rw [hadj] at hstep
            injection hstep with hs1
            subst hs1
            have hits1 := setItemStatus_eq _ _ _ _ hset
            subst hits1
            refine ⟨h1, h2, h3, h4, h5, h6, h7, ?_, ?_⟩
            · rw [h8]
              dsimp only
              rw [List.map_map]
              apply List.map_congr_left
              intro r hr
              simp only [Function.comp_apply]
              exact cancel_cond_pending hd r tl hp
            · intro pid
              rw [h9 pid]
              dsimp only
              by_cases hc : hd.productId = pid
              · subst hc
                rw [adjustStock_stock_self _ _ _ _ hadj]
                have hcond : (hd.status == OrderItemStatus.PENDING
                    && hd.productId == hd.productId) = true := by
                  rw [beq_iff_eq.mpr hp]
                  simp
                rw [List.filter_cons, if_pos hcond, List.map_cons, List.sum_cons]
                ring
              · rw [adjustStock_stock_other _ _ _ _ _ hadj (Ne.symm hc)]
                have hcond : (hd.status == OrderItemStatus.PENDING
                    && hd.productId == pid) = false := by
                  rw [beq_eq_false_iff_ne.mpr hc]
                  simp
                rw [List.filter_cons, if_neg (by rw [hcond]; exact Bool.false_ne_true)]
      · rw [if_neg (fun hb => hp (beq_iff_eq.mp hb))] at hstep
        injection hstep with hs1
        subst hs1
        refine ⟨h1, h2, h3, h4, h5, h6, h7, ?_, ?_⟩
        · rw [h8]
          apply List.map_congr_left
          intro r hr
          exact cancel_cond_skip hd r tl hp
        · intro pid
          rw [h9 pid]
          have hcond : (hd.status == OrderItemStatus.PENDING
              && hd.productId == pid) = false := by
            rw [beq_eq_false_iff_ne.mpr hp]
            simp
          rw [List.filter_cons, if_neg (by rw [hcond]; exact Bool.false_ne_true)]

theorem cancel_map_clean (db : DB) (oid : Nat)
    (hnd : (db.orderItems.map (fun oi => oi.id)).Nodup) :
    db.orderItems.map (fun r =>
      if (orderItemsOf db oid).any (fun oi =>
          oi.id == r.id && oi.status == OrderItemStatus.PENDING)
      then { r with status := OrderItemStatus.CANCELLED } else r)
    = db.orderItems.map (fun r =>
      if r.orderId == oid && r.status == OrderItemStatus.PENDING
      then { r with status := OrderItemStatus.CANCELLED } else r) := by
  apply List.map_congr_left
  intro r hr
  have hiff : ((orderItemsOf db oid).any (fun oi =>
      oi.id == r.id && oi.status == OrderItemStatus.PENDING))
      = (r.orderId == oid && r.status == OrderItemStatus.PENDING) := by
    apply bool_eq_of_iff
    constructor
    · intro hany
      rw [List.any_eq_true] at hany
      obtain ⟨oi, hoi, hpred⟩ := hany
      rw [Bool.and_eq_true] at hpred
      unfold orderItemsOf at hoi
      rw [List.mem_filter] at hoi
      have heq : oi = r :=
        List.inj_on_of_nodup_map hnd hoi.1 hr (beq_iff_eq.mp hpred.1)
      subst heq
      rw [Bool.and_eq_true]
      exact ⟨hoi.2, hpred.2⟩
    · intro hcond
      rw [Bool.and_eq_true] at hcond
      rw [List.any_eq_true]
      refine ⟨r, ?_, ?_⟩
      · unfold orderItemsOf
        rw [List.mem_filter]
        exact ⟨hr, hcond.1⟩
      · rw [Bool.and_eq_true]
        exact ⟨beq_self_eq_true _, hcond.2⟩
  rw [hiff]

/-! ## Claim theorems: order cancellation -/

/-- C4.  For a cancelOrder call on an order owned by the caller: if any
item of the order is COMPLETED the call fails with the forbidden
response and the database is unchanged; otherwise, on success, every item
of the order that was PENDING is set to CANCELLED (all other items —
in particular DELIVERED ones — keep their status), each product's stock
is incremented by exactly the total quantity of the order's PENDING items
referencing it (so DELIVERED items restore nothing), the order's status
becomes CANCELLED while every other order's status is untouched, and the
cart is untouched; and every failing call returns the unchanged
database. -/
theorem cancelOrder_ok_effects (db : DB) (uid oid : Nat) (order : Order)
    (hnd : (db.orderItems.map (fun oi => oi.id)).Nodup)
    (hfind : db.orders.find? (fun o => o.id == oid && o.userId == uid) = some order)
    (db' : DB) (h : cancelOrder db uid oid = (.ok, db')) :
    db'.orderItems = db.orderItems.map (fun r =>
      if r.orderId == order.id && r.status == OrderItemStatus.PENDING
      then { r with status := OrderItemStatus.CANCELLED } else r) ∧
    (∀ pid, productStock db'.products pid =
      productStock db.products pid +
        (((orderItemsOf db order.id).filter (fun oi =>
            oi.status == OrderItemStatus.PENDING && oi.productId == pid)).map
          (fun oi => oi.quantity)).sum) ∧
    orderStatus db' order.id = some .CANCELLED ∧
    (∀ oid2, oid2 ≠ order.id → orderStatus db' oid2 = orderStatus db oid2) ∧
    db'.cartItems = db.cartItems := by
  unfold cancelOrder at h
  rw [hfind] at h
  dsimp only at h
  by_cases hcomp : (orderItemsOf db order.id).any
      (fun oi => oi.status == OrderItemStatus.COMPLETED) = true
  · rw [if_pos hcomp] at h
    cases h
  · rw [if_neg hcomp] at h
    cases hloop : cancelLoop (orderItemsOf db order.id) db with
    | none => rw [hloop] at h; cases h
    | some db1 =>
      rw [hloop] at h
      dsimp only at h
      cases hset : setOrderStatus db1.orders order.id .CANCELLED with
      | none => rw [hset] at h; cases h
      | some os =>
        rw [hset] at h
        injection h with hr hdb
        subst hdb
        obtain ⟨h1, h2, h3, h4, h5, h6, h7, h8, h9⟩ :=
          cancelLoop_spec (orderItemsOf db order.id) db db1 hloop
        have hos := setOrderStatus_eq _ _ _ _ hset
        subst hos
        refine ⟨?_, ?_, ?_, ?_, ?_⟩
        · rw [h8, cancel_map_clean db order.id hnd]
        · intro pid
          exact h9 pid
        · unfold orderStatus
          dsimp only
          rw [h3]
          rw [find?_map_congr _ _ _ (fun o => by split <;> rfl)]
          cases hfo : db.orders.find? (fun o => o.id == order.id) with
          | none =>
            exfalso
            rw [List.find?_eq_none] at hfo
            exact hfo order (List.mem_of_find?_eq_some hfind) (beq_self_eq_true _)
          | some o0 =>
            have ho0 : (o0.id == order.id) = true := by
              have h10 := List.find?_some hfo
              simpa using h10
            rw [Option.map_some', Option.map_some']
            rw [if_pos ho0]
        · intro oid2 hne
          unfold orderStatus
          dsimp only
          rw [h3]
          rw [find?_map_congr _ _ _ (fun o => by split <;> rfl)]
          cases hfo : db.orders.find? (fun o => o.id == oid2) with
          | none => rfl
          | some o0 =>
            have ho0 : o0.id = oid2 := by
              have h10 := List.find?_some hfo
              simpa using h10
            have hcond : (o0.id == order.id) = false := by
              rw [beq_eq_false_iff_ne, ho0]
              exact hne
            rw [Option.map_some', Option.map_some',
              if_neg (by rw [hcond]; exact Bool.false_ne_true)]
            rfl
        · exact h2

theorem cancelOrder_spec (db : DB) (uid oid : Nat) (order : Order)
    (hnd : (db.orderItems.map (fun oi => oi.id)).Nodup)
    (hfind : db.orders.find? (fun o => o.id == oid && o.userId == uid) = some order) :
    ((orderItemsOf db order.id).any
        (fun oi => oi.status == OrderItemStatus.COMPLETED) = true →
      cancelOrder db uid oid = (.forbidden "Order has completed items", db)) ∧
    (∀ db', cancelOrder db uid oid = (.ok, db') →
      db'.orderItems = db.orderItems.map (fun r =>
        if r.orderId == order.id && r.status == OrderItemStatus.PENDING
        then { r with status := OrderItemStatus.CANCELLED } else r) ∧
      (∀ pid, productStock db'.products pid =
        productStock db.products pid +
          (((orderItemsOf db order.id).filter (fun oi =>
              oi.status == OrderItemStatus.PENDING && oi.productId == pid)).map
            (fun oi => oi.quantity)).sum) ∧
      orderStatus db' order.id = some .CANCELLED ∧
      (∀ oid2, oid2 ≠ order.id → orderStatus db' oid2 = orderStatus db oid2) ∧
      db'.cartItems = db.cartItems) ∧
    (∀ r db', cancelOrder db uid oid = (r, db') → r ≠ .ok → db' = db) := by
  refine ⟨?_, ?_, ?_⟩
  · intro hcomp
    unfold cancelOrder
    rw [hfind]
    dsimp only
    rw [if_pos hcomp]
  · intro db' h
    exact cancelOrder_ok_effects db uid oid order hnd hfind db' h
  · intro r db' h hne
    unfold cancelOrder at h
    rw [hfind] at h
    dsimp only at h
    by_cases hcomp : (orderItemsOf db order.id).any
        (fun oi => oi.status == OrderItemStatus.COMPLETED) = true
    · rw [if_pos hcomp] at h
      cases h
      rfl
    · rw [if_neg hcomp] at h
      cases hloop : cancelLoop (orderItemsOf db order.id) db with
      | none => rw [hloop] at h; cases h; rfl
      | some db1 =>
        rw [hloop] at h
        dsimp only at h
        cases hset : setOrderStatus db1.orders order.id .CANCELLED with
        | none => rw [hset] at h; cases h; rfl
        | some os =>
          rw [hset] at h
          injection h with hr hdb
          subst hr
          exact absurd rfl hne

/-! ## Status-transition lemmas -/

theorem completeItem_orderItems_cases (db : DB) (uid iid : Nat) :
    (completeItem db uid iid).2.orderItems = db.orderItems ∨
    (∃ item, db.orderItems.find? (fun oi => oi.id == iid) = some item ∧
      item.status = OrderItemStatus.PENDING ∧
      (completeItem db uid iid).2.orderItems = db.orderItems.map (fun oi =>
        if oi.id == iid then { oi with status := OrderItemStatus.COMPLETED } else oi)) := by
  unfold completeItem completeItemStates
  cases hf : db.orderItems.find? (fun oi => oi.id == iid) with
  | none => left; rfl
  | some item =>
    dsimp only
    cases ho : db.orders.find? (fun o => o.id == item.orderId) with
    | none => left; rfl
    | some order =>
      dsimp only
      cases hu : (order.userId == uid) with
      | false => left; rfl
      | true =>
        cases hs : (item.status == OrderItemStatus.PENDING) with
        | false => left; rfl
        | true =>
          cases hsp : (db.orderItems.filter (fun oi => oi.orderId == order.id)).any
              (fun oi => !(oi.id == iid) && !(oi.status == OrderItemStatus.COMPLETED)) with
          | true => right; exact ⟨item, rfl, beq_iff_eq.mp hs, rfl⟩
          | false => right; exact ⟨item, rfl, beq_iff_eq.mp hs, rfl⟩

theorem sellerDeliver_orderItems_cases (db : DB) (sid iid : Nat) :
    (sellerDeliver db sid iid).2.orderItems = db.orderItems ∨
    (∃ item, db.orderItems.find?
        (fun oi => oi.id == iid && sellerOwnsItem db sid oi) = some item ∧
      item.status = OrderItemStatus.PENDING ∧
      (sellerDeliver db sid iid).2.orderItems = db.orderItems.map (fun oi =>
        if oi.id == iid then { oi with status := OrderItemStatus.DELIVERED } else oi)) := by
  unfold sellerDeliver
  cases hf : db.orderItems.find? (fun oi => oi.id == iid && sellerOwnsItem db sid oi) with
  | none => left; rfl
  | some item =>
    dsimp only
    cases hd : (item.status == OrderItemStatus.DELIVERED) with
    | true => left; rfl
    | false =>
      cases hs : (item.status == OrderItemStatus.PENDING) with
      | false => left; rfl
      | true => right; exact ⟨item, rfl, beq_iff_eq.mp hs, rfl⟩

theorem sellerStatus_orderItems_cases (db : DB) (sid iid : Nat) (sp : String) :
    (sellerStatus db sid iid sp).2.orderItems = db.orderItems ∨
    (∃ item st, db.orderItems.find?
        (fun oi => oi.id == iid && sellerOwnsItem db sid oi) = some item ∧
      item.status = OrderItemStatus.PENDING ∧
      (st = OrderItemStatus.CANCELLED ∨ st = OrderItemStatus.DELIVERED) ∧
      (sellerStatus db sid iid sp).2.orderItems = db.orderItems.map (fun oi =>
        if oi.id == iid then { oi with status := st } else oi)) := by
  unfold sellerStatus sellerStatusStates
  dsimp only
  cases hg : (!(sp == "CANCELLED" || sp == "DELIVERED")) with
  | true => left; rfl
  | false =>
    cases hf : db.orderItems.find? (fun oi => oi.id == iid && sellerOwnsItem db sid oi) with
    | none => left; rfl
    | some item =>
      dsimp only
      cases hs : (item.status == OrderItemStatus.PENDING) with
      | false => left; rfl
      | true =>
        cases hc : (sp == "CANCELLED") with
        | false =>
          right
          exact ⟨item, OrderItemStatus.DELIVERED, rfl, beq_iff_eq.mp hs, Or.inr rfl, rfl⟩
        | true =>
          right
          refine ⟨item, OrderItemStatus.CANCELLED, rfl, beq_iff_eq.mp hs, Or.inl rfl, ?_⟩
          dsimp only
          cases hadj : adjustStock
              ({ db with orderItems := db.orderItems.map (fun oi =>
                  if oi.id == iid then { oi with status := OrderItemStatus.CANCELLED }
                  else oi) } : DB).products item.productId item.quantity with
          | none => rfl
          | some ps => rfl

theorem cancelOrder_orderItems_cases (db : DB) (uid oid : Nat) :
    (cancelOrder db uid oid).2.orderItems = db.orderItems ∨
    (∃ oid2, (cancelOrder db uid oid).2.orderItems = db.orderItems.map (fun r =>
      if (orderItemsOf db oid2).any (fun oi =>
          oi.id == r.id && oi.status == OrderItemStatus.PENDING)
      then { r with status := OrderItemStatus.CANCELLED } else r)) := by
  unfold cancelOrder
  cases hf : db.orders.find? (fun o => o.id == oid && o.userId == uid) with
  | none => left; rfl
  | some order =>
    dsimp only
    cases hcomp : (orderItemsOf db order.id).any
        (fun oi => oi.status == OrderItemStatus.COMPLETED) with
    | true => left; rfl
    | false =>
      cases hloop : cancelLoop (orderItemsOf db order.id) db with
      | none => left; rfl
      | some db1 =>
        dsimp only
        obtain ⟨h1, h2, h3, h4, h5, h6, h7, h8, h9⟩ :=
          cancelLoop_spec (orderItemsOf db order.id) db db1 hloop
        cases hset : setOrderStatus db1.orders order.id .CANCELLED with
        | none => left; rfl
        | some os =>
          right
          exact ⟨order.id, h8⟩

theorem statusChange_map_upd (l : List OrderItem)
    (hnd : (l.map (fun oi => oi.id)).Nodup)
    (iid : Nat) (st : OrderItemStatus) (item : OrderItem) (p : OrderItem → Bool)
    (hfind : l.find? p = some item) (hid : (item.id == iid) = true)
    (hpend : item.status = OrderItemStatus.PENDING)
    (tid : Nat) (s s' : OrderItemStatus)
    (hs : (l.find? (fun oi => oi.id == tid)).map (fun oi => oi.status) = some s)
    (hs' : ((l.map (fun oi =>
        if oi.id == iid then { oi with status := st } else oi)).find?
        (fun oi => oi.id == tid)).map (fun oi => oi.status) = some s') :
    s' = s ∨ (s = OrderItemStatus.PENDING ∧ s' = st) := by
  rw [find?_map_congr _ _ _ (fun a => by split <;> rfl)] at hs'
  cases hfo : l.find? (fun oi => oi.id == tid) with
  | none => rw [hfo] at hs; cases hs
  | some r0 =>
    rw [hfo] at hs hs'
    rw [Option.map_some'] at hs
    injection hs with hs
    rw [Option.map_some', Option.map_some'] at hs'
    injection hs' with hs'
    by_cases hc : (r0.id == iid) = true
    · have hr0 : r0 ∈ l := List.mem_of_find?_eq_some hfo
      have hitem : item ∈ l := List.mem_of_find?_eq_some hfind
      have heq : r0 = item := List.inj_on_of_nodup_map hnd hr0 hitem
        (by rw [beq_iff_eq.mp hc, beq_iff_eq.mp hid])
      rw [if_pos hc] at hs'
      right
      constructor
      · rw [← hs, heq]
        exact hpend
      · exact hs'.symm
    · rw [if_neg hc] at hs'
      left
      rw [← hs', ← hs]

theorem statusChange_cancel_map (db : DB) (oid2 : Nat)
    (hnd : (db.orderItems.map (fun oi => oi.id)).Nodup)
    (tid : Nat) (s s' : OrderItemStatus)
    (hs : (db.orderItems.find? (fun oi => oi.id == tid)).map
        (fun oi => oi.status) = some s)
    (hs' : ((db.orderItems.map (fun r =>
        if (orderItemsOf db oid2).any (fun oi =>
            oi.id == r.id && oi.status == OrderItemStatus.PENDING)
        then { r with status := OrderItemStatus.CANCELLED } else r)).find?
        (fun oi => oi.id == tid)).map (fun oi => oi.status) = some s') :
    s' = s ∨ (s = OrderItemStatus.PENDING ∧ s' = OrderItemStatus.CANCELLED) := by
  rw [find?_map_congr _ _ _ (fun a => by split <;> rfl)] at hs'
  cases hfo : db.orderItems.find? (fun oi => oi.id == tid) with
  | none => rw [hfo] at hs; cases hs
  | some r0 =>
    rw [hfo] at hs hs'
    rw [Option.map_some'] at hs
    injection hs with hs
    rw [Option.map_some', Option.map_some'] at hs'
    injection hs' with hs'
    by_cases hc : ((orderItemsOf db oid2).any (fun oi =>
        oi.id == r0.id && oi.status == OrderItemStatus.PENDING)) = true
    · rw [if_pos hc] at hs'
      rw [List.any_eq_true] at hc
      obtain ⟨oi, hoi, hpred⟩ := hc
      rw [Bool.and_eq_true] at hpred
      unfold orderItemsOf at hoi
      rw [List.mem_filter] at hoi
      have heq : oi = r0 := List.inj_on_of_nodup_map hnd hoi.1
        (List.mem_of_find?_eq_some hfo) (beq_iff_eq.mp hpred.1)
      right
      constructor
      · rw [← hs, ← heq]
        exact beq_iff_eq.mp hpred.2
      · exact hs'.symm
    · rw [if_neg hc] at hs'
      left
      rw [← hs', ← hs]

theorem frozen_map_upd (l : List OrderItem)
    (hnd : (l.map (fun oi => oi.id)).Nodup)
    (iid : Nat) (st : OrderItemStatus) (item : OrderItem) (p : OrderItem → Bool)
    (hfind : l.find? p = some item) (hid : (item.id == iid) = true)
    (hpend : item.status = OrderItemStatus.PENDING)
    (tid : Nat) (r0 : OrderItem)
    (hfo : l.find? (fun oi => oi.id == tid) = some r0)
    (hdel : r0.status = OrderItemStatus.DELIVERED) :
    ((l.map (fun oi =>
        if oi.id == iid then { oi with status := st } else oi)).find?
        (fun oi => oi.id == tid)).map (fun oi => oi.status)
      = some OrderItemStatus.DELIVERED := by
  rw [find?_map_congr _ _ _ (fun a => by split <;> rfl), hfo,
    Option.map_some', Option.map_some']
  by_cases hc : (r0.id == iid) = true
  · exfalso
    have heq : r0 = item := List.inj_on_of_nodup_map hnd
      (List.mem_of_find?_eq_some hfo) (List.mem_of_find?_eq_some hfind)
      (by rw [beq_iff_eq.mp hc, beq_iff_eq.mp hid])
    rw [heq, hpend] at hdel
    cases hdel
  · rw [if_neg hc, hdel]

theorem frozen_cancel_map (db : DB) (oid2 : Nat)
    (hnd : (db.orderItems.map (fun oi => oi.id)).Nodup)
    (tid : Nat) (r0 : OrderItem)
    (hfo : db.orderItems.find? (fun oi => oi.id == tid) = some r0)
    (hdel : r0.status = OrderItemStatus.DELIVERED) :
    ((db.orderItems.map (fun r =>
        if (orderItemsOf db oid2).any (fun oi =>
            oi.id == r.id && oi.status == OrderItemStatus.PENDING)
        then { r with status := OrderItemStatus.CANCELLED } else r)).find?
        (fun oi => oi.id == tid)).map (fun oi => oi.status)
      = some OrderItemStatus.DELIVERED := by
  rw [find?_map_congr _ _ _ (fun a => by split <;> rfl), hfo,
    Option.map_some', Option.map_some']
  by_cases hc : ((orderItemsOf db oid2).any (fun oi =>
      oi.id == r0.id && oi.status == OrderItemStatus.PENDING)) = true
  · exfalso
    rw [List.any_eq_true] at hc
    obtain ⟨oi, hoi, hpred⟩ := hc
    rw [Bool.and_eq_true] at hpred
    unfold orderItemsOf at hoi
    rw [List.mem_filter] at hoi
    have heq : oi = r0 := List.inj_on_of_nodup_map hnd hoi.1
      (List.mem_of_find?_eq_some hfo) (beq_iff_eq.mp hpred.1)
    rw [heq, hdel] at hpred
    cases hpred.2
  · rw [if_neg hc, hdel]

/-! ## Claim theorems: status monotonicity -/

/-- C9.  Across every mutating operation of the order lifecycle — buyer
completion, seller deliver, seller status transition (any argument), and
order cancellation — an order item's status only moves along the fixed
partial order PENDING → DELIVERED/COMPLETED/CANCELLED, DELIVERED →
COMPLETED: no operation moves a status backward and no operation changes
the status of a COMPLETED or CANCELLED item (under the database's unique
item ids). -/
theorem item_status_monotonic (db : DB)
    (hnd : (db.orderItems.map (fun oi => oi.id)).Nodup) (tid : Nat)
    (s s' : OrderItemStatus) :
    (∀ uid iid, itemStatus db tid = some s →
      itemStatus (completeItem db uid iid).2 tid = some s' →
      allowedMove s s' = true) ∧
    (∀ sid iid, itemStatus db tid = some s →
      itemStatus (sellerDeliver db sid iid).2 tid = some s' →
      allowedMove s s' = true) ∧
    (∀ sid iid sp, itemStatus db tid = some s →
      itemStatus (sellerStatus db sid iid sp).2 tid = some s' →
      allowedMove s s' = true) ∧
    (∀ uid oid, itemStatus db tid = some s →
      itemStatus (cancelOrder db uid oid).2 tid = some s' →
      allowedMove s s' = true) := by
  have hrefl : ∀ a : OrderItemStatus, allowedMove a a = true := by
    intro a; cases a <;> rfl
  have hfromPending : ∀ a : OrderItemStatus,
      allowedMove OrderItemStatus.PENDING a = true := by
    intro a; cases a <;> rfl
  refine ⟨?_, ?_, ?_, ?_⟩
  · intro uid iid hs hs'
    rcases completeItem_orderItems_cases db uid iid with
      hcase | ⟨item, hfind2, hpend2, hcase⟩
    · unfold itemStatus at hs hs'
      rw [hcase, hs] at hs'
      injection hs' with he
      rw [← he]
      exact hrefl s
    · unfold itemStatus at hs hs'
      rw [hcase] at hs'
      have hid : (item.id == iid) = true := by
        have h2 := List.find?_some hfind2
        simpa using h2
      rcases statusChange_map_upd db.orderItems hnd iid _ item _
          hfind2 hid hpend2 tid s s' hs hs' with he | ⟨hA, hB⟩
      · rw [he]; exact hrefl s
      · rw [hA]; exact hfromPending s'
  · intro sid iid hs hs'
    rcases sellerDeliver_orderItems_cases db sid iid with
      hcase | ⟨item, hfind2, hpend2, hcase⟩
    · unfold itemStatus at hs hs'
      rw [hcase, hs] at hs'
      injection hs' with he
      rw [← he]
      exact hrefl s
    · unfold itemStatus at hs hs'
      rw [hcase] at hs'
      have hcond : (item.id == iid && sellerOwnsItem db sid item) = true := by
        have h2 := List.find?_some hfind2
        simpa using h2
      rw [Bool.and_eq_true] at hcond
      rcases statusChange_map_upd db.orderItems hnd iid _ item _
          hfind2 hcond.1 hpend2 tid s s' hs hs' with he | ⟨hA, hB⟩
      · rw [he]; exact hrefl s
      · rw [hA]; exact hfromPending s'
  · intro sid iid sp hs hs'
    rcases sellerStatus_orderItems_cases db sid iid sp with
      hcase | ⟨item, st, hfind2, hpend2, hst, hcase⟩
    · unfold itemStatus at hs hs'
      rw [hcase, hs] at hs'
      injection hs' with he
      rw [← he]
      exact hrefl s
    · unfold itemStatus at hs hs'
      rw [hcase] at hs'
      have hcond : (item.id == iid && sellerOwnsItem db sid item) = true := by
        have h2 := List.find?_some hfind2
        simpa using h2
      rw [Bool.and_eq_true] at hcond
      rcases statusChange_map_upd db.orderItems hnd iid st item _
          hfind2 hcond.1 hpend2 tid s s' hs hs' with he | ⟨hA, hB⟩
      · rw [he]; exact hrefl s
      · rw [hA]; exact hfromPending s'
  · intro uid oid hs hs'
    rcases cancelOrder_orderItems_cases db uid oid with hcase | ⟨oid2, hcase⟩
    · unfold itemStatus at hs hs'
      rw [hcase, hs] at hs'
      injection hs' with he
      rw [← he]
      exact hrefl s
    · unfold itemStatus at hs hs'
      rw [hcase] at hs'
      rcases statusChange_cancel_map db oid2 hnd tid s s' hs hs' with he | ⟨hA, hB⟩
      · rw [he]; exact hrefl s
      · rw [hA]; exact hfromPending s'

/-- C10.  Once an order item is DELIVERED, no operation of the system
ever changes its status again: buyer completion, seller deliver, the
seller status endpoint and order cancellation all leave a DELIVERED item
DELIVERED (so DELIVERED → COMPLETED is unreachable by any operation);
and a successful cancellation of an owned order restores stock only for
its PENDING items — DELIVERED items restore nothing — while the order
itself becomes CANCELLED. -/
theorem delivered_items_frozen (db : DB)
    (hnd : (db.orderItems.map (fun oi => oi.id)).Nodup) (tid : Nat)
    (hdel : itemStatus db tid = some OrderItemStatus.DELIVERED) :
    (∀ uid iid, itemStatus (completeItem db uid iid).2 tid
      = some OrderItemStatus.DELIVERED) ∧
    (∀ sid iid, itemStatus (sellerDeliver db sid iid).2 tid
      = some OrderItemStatus.DELIVERED) ∧
    (∀ sid iid sp, itemStatus (sellerStatus db sid iid sp).2 tid
      = some OrderItemStatus.DELIVERED) ∧
    (∀ uid oid, itemStatus (cancelOrder db uid oid).2 tid
      = some OrderItemStatus.DELIVERED) ∧
    (∀ uid oid order db',
      db.orders.find? (fun o => o.id == oid && o.userId == uid) = some order →
      cancelOrder db uid oid = (.ok, db') →
      orderStatus db' order.id = some OrderStatus.CANCELLED ∧
      (∀ pid, productStock db'.products pid = productStock db.products pid +
        (((orderItemsOf db order.id).filter (fun oi =>
            oi.status == OrderItemStatus.PENDING && oi.productId == pid)).map
          (fun oi => oi.quantity)).sum)) := by
  have hdel2 : (db.orderItems.find? (fun oi => oi.id == tid)).map
      (fun oi => oi.status) = some OrderItemStatus.DELIVERED := hdel
  obtain ⟨r0, hfo, hr0⟩ : ∃ r0, db.orderItems.find? (fun oi => oi.id == tid) = some r0 ∧
      r0.status = OrderItemStatus.DELIVERED := by
    cases hfo : db.orderItems.find? (fun oi => oi.id == tid) with
    | none => rw [hfo] at hdel2; cases hdel2
    | some r0 =>
      rw [hfo, Option.map_some'] at hdel2
      injection hdel2 with h2
      exact ⟨r0, rfl, h2⟩
  refine ⟨?_, ?_, ?_, ?_, ?_⟩
  · intro uid iid
    rcases completeItem_orderItems_cases db uid iid with
      hcase | ⟨item, hfind2, hpend2, hcase⟩
    · unfold itemStatus
      rw [hcase]
      exact hdel2
    · unfold itemStatus
      rw [hcase]
      have hid : (item.id == iid) = true := by
        have h2 := List.find?_some hfind2
        simpa using h2
      exact frozen_map_upd db.orderItems hnd iid _ item _ hfind2 hid hpend2 tid r0 hfo hr0
  · intro sid iid
    rcases sellerDeliver_orderItems_cases db sid iid with
      hcase | ⟨item, hfind2, hpend2, hcase⟩
    · unfold itemStatus
      rw [hcase]
      exact hdel2
    · unfold itemStatus
      rw [hcase]
      have hcond : (item.id == iid && sellerOwnsItem db sid item) = true := by
        have h2 := List.find?_some hfind2
        simpa using h2
      rw [Bool.and_eq_true] at hcond
      exact frozen_map_upd db.orderItems hnd iid _ item _ hfind2 hcond.1 hpend2 tid r0 hfo hr0
  · intro sid iid sp
    rcases sellerStatus_orderItems_cases db sid iid sp with
      hcase | ⟨item, st, hfind2, hpend2, hst, hcase⟩
    · unfold itemStatus
      rw [hcase]
      exact hdel2
    · unfold itemStatus
      rw [hcase]
      have hcond : (item.id == iid && sellerOwnsItem db sid item) = true := by
        have h2 := List.find?_some hfind2
        simpa using h2
      rw [Bool.and_eq_true] at hcond
      exact frozen_map_upd db.orderItems hnd iid st item _ hfind2 hcond.1 hpend2 tid r0 hfo hr0
  · intro uid oid
    rcases cancelOrder_orderItems_cases db uid oid with hcase | ⟨oid2, hcase⟩
    · unfold itemStatus
      rw [hcase]
      exact hdel2
    · unfold itemStatus
      rw [hcase]
      exact frozen_cancel_map db oid2 hnd tid r0 hfo hr0
  · intro uid oid order db' hfindO hok
    obtain ⟨e1, e2, e3, e4, e5⟩ := cancelOrder_ok_effects db uid oid order hnd hfindO db' hok
    exact ⟨e3, e2⟩

/-! ## Concrete witnesses -/

/-- Witness for C1 at the spec's concrete scenario: checkout of cart
lines (price 100, qty 2) and (price 50, qty 1) creates the PAID order
with total 250. -/
theorem checkout_success_spec_witness :
    checkout dbCart 1 "addr" "JNE" "BCA" none
      = (.ok ⟨55, 1, .PAID, 250, "addr", "JNE", "BCA"⟩,
          (checkout dbCart 1 "addr" "JNE" "BCA" none).2) ∧
    ((checkout dbCart 1 "addr" "JNE" "BCA" none).2).orders
      = dbCart.orders ++ [⟨55, 1, .PAID, 250, "addr", "JNE", "BCA"⟩] ∧
    (⟨55, 1, .PAID, 250, "addr", "JNE", "BCA"⟩ : Order).total
      = cartTotal dbCart.products (cartLinesFor dbCart 1 none) := by
  have h : checkout dbCart 1 "addr" "JNE" "BCA" none
      = (.ok ⟨55, 1, .PAID, 250, "addr", "JNE", "BCA"⟩,
          (checkout dbCart 1 "addr" "JNE" "BCA" none).2) := by decide
  obtain ⟨c1, c2, c3, c4, c5, c6, c7⟩ :=
    checkout_success_spec dbCart 1 "addr" "JNE" "BCA" none _ _ h
  exact ⟨h, c1, c3⟩

/-- Witness for C2: a checkout with an empty address fails with the
validation error and leaves the database untouched. -/
theorem checkout_failure_atomic_witness :
    checkout dbCart 1 "" "JNE" "BCA" none
      = (.validationError "Missing required fields: address, shipping, or payment", dbCart) :=
  (checkout_failure_atomic dbCart 1 "" "JNE" "BCA" none).1 (by decide)

/-- Witness for C3 (amended): completing the only item of a one-item
order returns the completed item and ends with the order COMPLETED. -/
theorem completeItem_success_spec_witness :
    dbOneItem.orderItems.find? (fun oi => oi.id == 1)
      = some ⟨1, 1, 1, 1, 100, .PENDING⟩ ∧
    (completeItem dbOneItem 1 1).1 = .ok ⟨1, 1, 1, 1, 100, .COMPLETED⟩ ∧
    orderStatus ((completeItem dbOneItem 1 1).2) 1 = some OrderStatus.COMPLETED := by
  have hfind : dbOneItem.orderItems.find? (fun oi => oi.id == 1)
      = some ⟨1, 1, 1, 1, 100, .PENDING⟩ := by decide
  have hord : dbOneItem.orders.find?
      (fun o => o.id == (⟨1, 1, 1, 1, 100, OrderItemStatus.PENDING⟩ : OrderItem).orderId)
      = some ⟨1, 1, .PAID, 100, "addr", "JNE", "BCA"⟩ := by decide
  obtain ⟨c1, c2, c3, c4⟩ := completeItem_success_spec dbOneItem 1 1
    ⟨1, 1, 1, 1, 100, .PENDING⟩ ⟨1, 1, .PAID, 100, "addr", "JNE", "BCA"⟩
    hfind hord rfl rfl
  exact ⟨hfind, c1, (c3 (by decide)).1⟩

/-- Witness for C4: cancelling the one-PENDING-item order sets the order
to CANCELLED and restores the product's stock by the item's quantity. -/
theorem cancelOrder_spec_witness :
    (dbOneItem.orderItems.map (fun oi => oi.id)).Nodup ∧
    dbOneItem.orders.find? (fun o => o.id == 1 && o.userId == 1)
      = some ⟨1, 1, .PAID, 100, "addr", "JNE", "BCA"⟩ ∧
    orderStatus ((cancelOrder dbOneItem 1 1).2) 1 = some OrderStatus.CANCELLED ∧
    productStock ((cancelOrder dbOneItem 1 1).2).products 1
      = productStock dbOneItem.products 1 + 1 := by
  have hnd : (dbOneItem.orderItems.map (fun oi => oi.id)).Nodup := by decide
  have hfind : dbOneItem.orders.find? (fun o => o.id == 1 && o.userId == 1)
      = some ⟨1, 1, .PAID, 100, "addr", "JNE", "BCA"⟩ := by decide
  have hok : cancelOrder dbOneItem 1 1 = (.ok, (cancelOrder dbOneItem 1 1).2) := by decide
  obtain ⟨c1, c2, c3⟩ := cancelOrder_spec dbOneItem 1 1
    ⟨1, 1, .PAID, 100, "addr", "JNE", "BCA"⟩ hnd hfind
  obtain ⟨e1, e2, e3, e4, e5⟩ := c2 _ hok
  refine ⟨hnd, hfind, e3, ?_⟩
  have h2 := e2 1
  rw [show (((orderItemsOf dbOneItem
      (⟨1, 1, .PAID, 100, "addr", "JNE", "BCA"⟩ : Order).id).filter (fun oi =>
        oi.status == OrderItemStatus.PENDING && oi.productId == 1)).map
      (fun oi => oi.quantity)).sum = 1 from by decide] at h2
  exact h2

/-- Witness for C5: completing an already-DELIVERED item fails with
"Invalid status transition" and changes nothing. -/
theorem completeItem_requires_pending_witness :
    (⟨1, 1, 1, 1, 100, OrderItemStatus.DELIVERED⟩ : OrderItem).status ≠ .PENDING ∧
    completeItem dbDelivered 1 1
      = (.invalidTransition "Invalid status transition", dbDelivered) := by
  have hfind : dbDelivered.orderItems.find? (fun oi => oi.id == 1)
      = some ⟨1, 1, 1, 1, 100, .DELIVERED⟩ := by decide
  have hord : dbDelivered.orders.find?
      (fun o => o.id == (⟨1, 1, 1, 1, 100, OrderItemStatus.DELIVERED⟩ : OrderItem).orderId)
      = some ⟨1, 1, .PAID, 100, "addr", "JNE", "BCA"⟩ := by decide
  exact ⟨by decide,
    (completeItem_requires_pending dbDelivered 1 1 _ _ hfind hord rfl).1 (by decide)⟩

/-- Witness for C6: delivering a PENDING item succeeds once, the repeat
is rejected with the message naming DELIVERED, and the seller
cancellation restocks the item's quantity. -/
theorem seller_transitions_spec_witness :
    (sellerDeliver dbOneItem 9 1).1 = .ok ⟨1, 1, 1, 1, 100, .DELIVERED⟩ ∧
    sellerDeliver ((sellerDeliver dbOneItem 9 1).2) 9 1
      = (.invalidTransition ("Item already marked as " ++ OrderItemStatus.DELIVERED.name),
          (sellerDeliver dbOneItem 9 1).2) ∧
    productStock ((sellerStatus dbOneItem 9 1 "CANCELLED").2).products 1
      = productStock dbOneItem.products 1 + 1 := by
  have hfind : dbOneItem.orderItems.find?
      (fun oi => oi.id == 1 && sellerOwnsItem dbOneItem 9 oi)
      = some ⟨1, 1, 1, 1, 100, .PENDING⟩ := by decide
  obtain ⟨c1, c2, c3, c4⟩ := seller_transitions_spec dbOneItem 9 1 _ hfind
  obtain ⟨d1, d2, d3⟩ := c1 rfl _ _ rfl
  obtain ⟨f1, f2, f3, f4⟩ := c4 rfl _ _ rfl
  exact ⟨d1, d3, f3⟩

/-- Witness for C7: the spec's concrete scenario — reviewing without a
COMPLETED purchase is NotEligible, and after user 5's order of product
101 is COMPLETED the review is created. -/
theorem submitReview_spec_witness :
    submitReview dbOneItem 1 1 5 "good"
      = (.notEligible "Complete a purchase before reviewing", dbOneItem) ∧
    submitReview dbCompleted 5 101 5 "good"
      = (.ok ⟨1, 5, 101, 5, "good"⟩,
          { dbCompleted with
            reviews := dbCompleted.reviews ++ [⟨1, 5, 101, 5, "good"⟩],
            nextReviewId := 2 }) := by
  have h1 := (submitReview_spec dbOneItem 1 1 5 "good"
    (by decide) (by decide) (by decide)).1 (by decide)
  have h2 := ((submitReview_spec dbCompleted 5 101 5 "good"
    (by decide) (by decide) (by decide)).2.2.2.1)
    ⟨1, 1, 101, 1, 100, .PENDING⟩ (by decide) (by decide)
  exact ⟨h1, h2⟩

/-- Witness for C8: user 1 asking for user 5's order 1 gets NotFound. -/
theorem getOrder_hides_foreign_orders_witness :
    getOrder dbCompleted 1 1 = .notFound "Order not found" :=
  (getOrder_hides_foreign_orders dbCompleted 1 1 (by decide)).1

/-- Witness for C9: the PENDING → COMPLETED move taken by buyer
completion is an allowed move. -/
theorem item_status_monotonic_witness :
    itemStatus dbOneItem 1 = some OrderItemStatus.PENDING ∧
    itemStatus (completeItem dbOneItem 1 1).2 1 = some OrderItemStatus.COMPLETED ∧
    allowedMove OrderItemStatus.PENDING OrderItemStatus.COMPLETED = true := by
  have hs : itemStatus dbOneItem 1 = some OrderItemStatus.PENDING := by decide
  have hs' : itemStatus (completeItem dbOneItem 1 1).2 1
      = some OrderItemStatus.COMPLETED := by decide
  exact ⟨hs, hs',
    (item_status_monotonic dbOneItem (by decide) 1 _ _).1 1 1 hs hs'⟩

/-- Witness for C10: the DELIVERED item stays DELIVERED under buyer
completion and under order cancellation. -/
theorem delivered_items_frozen_witness :
    itemStatus dbDelivered 1 = some OrderItemStatus.DELIVERED ∧
    itemStatus (cancelOrder dbDelivered 1 1).2 1 = some OrderItemStatus.DELIVERED ∧
    itemStatus (completeItem dbDelivered 1 1).2 1 = some OrderItemStatus.DELIVERED := by
  have hdel : itemStatus dbDelivered 1 = some OrderItemStatus.DELIVERED := by decide
  obtain ⟨c1, c2, c3, c4, c5⟩ := delivered_items_frozen dbDelivered (by decide) 1 hdel
  exact ⟨hdel, c4 1 1, c1 1 1⟩
